import Mathlib

/-!
Verification of the genome-explorer indicator pipeline.

This file gives a shallow embedding, in Lean 4, of the indicator
computation and rendering pipeline of the repository: the dynamic
indicator calculator (`src/utils/dynamicIndicatorCalculator.ts`, both
revisions), the bundled plugin calculators (`data/indicators/sma.js`,
`rsi.js`, `ema.js` / the MACD module), the main-chart indicator
reconciliation effect (`src/components/Chart/MainChart.tsx`), the
indicator configuration store (`src/utils/indicatorManager.ts` and
`src/repositories/indicator-configs/IndicatorConfigRepository.ts`) and
the CSV row parser (`src/repositories/symbol-data/SymbolDataRepository.ts`).

Modelling conventions:
* JavaScript numbers are modelled as rationals (`ℚ`); where IEEE special
  values (NaN, Infinity) are reachable in the source, an explicit extended
  type `JsVal` with JavaScript division/addition semantics is used instead.
* `x || default` on numeric parameters is modelled by `jsOr` on `ℕ`
  (0 is the only falsy natural), and on strings by `jsOrS` ("" is falsy).
* JavaScript `Map` built by `forEach`/`set` is modelled by `jsMapGet`
  (last insertion wins on duplicate keys).
* Asynchronous plumbing (promises, setTimeout, requestAnimationFrame) is
  erased: each calculation is modelled by its completed result.
-/

/-- One OHLC bar. `time` is a JS number (unix seconds); prices are JS
numbers. Field `open` is spelled `open_` because `open` is a Lean keyword. -/
structure OHLC where
  time : ℚ
  open_ : ℚ
  high : ℚ
  low : ℚ
  close : ℚ
  deriving Repr, DecidableEq, Inhabited

/-- A raw computed-series point `{time, value}` with a plain numeric value. -/
structure RawPoint where
  time : ℚ
  value : ℚ
  deriving Repr, DecidableEq, Inhabited

/-- An aligned (or null-carrying) series point `{time, value: number | null}`;
`none` models JavaScript `null`. -/
structure AlignedPoint where
  time : ℚ
  value : Option ℚ
  deriving Repr, DecidableEq, Inhabited

/-- JavaScript `n || d` for natural-number parameters: `0` (and an absent
key, which we also encode as `0`) is falsy and is replaced by the default. -/
def jsOr (n d : ℕ) : ℕ := if n = 0 then d else n

/-- JavaScript `s || d` for string parameters: the empty string is falsy. -/
def jsOrS (s d : String) : String := if s = "" then d else s

/-- Indexing `data[i]` inside a loop whose bounds guarantee `i` is in
range; out-of-range access is mapped to the default bar. -/
def barAt (data : List OHLC) (i : ℕ) : OHLC := (data.get? i).getD default

/-- Lookup in a JavaScript `Map<number, number>` built by iterating the
point list with `map.set(point.time, point.value)`: on duplicate
timestamps the last insertion wins, hence the search over the reversed
list. A miss (`undefined`) is `none`. -/
def jsMapGet (pts : List RawPoint) (t : ℚ) : Option ℚ :=
  (pts.reverse.find? (fun p => decide (p.time = t))).map RawPoint.value

/-- Parameter object passed to the calculations. JavaScript reads named
keys of an untyped object; an absent key is `undefined`, which behaves
like the falsy `0` / `""` under the `||` defaulting the calculations use,
so absent keys are encoded by the falsy value of each field. -/
structure Params where
  period : ℕ := 0
  source : String := ""
  fastPeriod : ℕ := 0
  slowPeriod : ℕ := 0
  signalPeriod : ℕ := 0
  color : String := ""
  deriving Repr, DecidableEq, Inhabited

/-- Dynamic field access `(bar as any)[source]` for the four valid OHLC
field names. Every call site first applies `jsOrS source "close"`, and no
caller in the repository passes a name outside these four (JavaScript
would produce `undefined`/NaN there); unknown names are mapped to `close`. -/
def getSource (b : OHLC) (source : String) : ℚ :=
  if source = "open" then b.open_
  else if source = "high" then b.high
  else if source = "low" then b.low
  else b.close

/-- Timeline alignment (`DynamicIndicatorCalculator.alignIndicatorData`,
second revision of `dynamicIndicatorCalculator.ts`, lines 200-222): build
a time-keyed map of the computed series, then emit, for every main-data
bar in order, `{time: bar.time, value: map.get(bar.time) ?? null}`. -/
def alignIndicatorData (indicatorData : List RawPoint) (mainData : List OHLC) :
    List AlignedPoint :=
  mainData.map (fun mainPoint =>
    { time := mainPoint.time, value := jsMapGet indicatorData mainPoint.time })

theorem jsMapGet_eq_none_iff (pts : List RawPoint) (t : ℚ) :
    jsMapGet pts t = none ↔ ∀ p ∈ pts, p.time ≠ t := by
  simp only [jsMapGet, Option.map_eq_none', List.find?_eq_none, List.mem_reverse,
    decide_eq_true_eq]

theorem jsMapGet_mem_of_eq_some (pts : List RawPoint) (t : ℚ) (v : ℚ)
    (h : jsMapGet pts t = some v) : RawPoint.mk t v ∈ pts := by
  simp only [jsMapGet, Option.map_eq_some'] at h
  obtain ⟨p, hp, hv⟩ := h
  have hmem := List.mem_of_find?_eq_some hp
  have htime := List.find?_some hp
  simp only [decide_eq_true_eq] at htime
  rw [List.mem_reverse] at hmem
  have hpe : p = RawPoint.mk t v := by
    cases p; simp_all
  rwa [hpe] at hmem

/-- C1. `alignIndicatorData` emits exactly one point per source bar, in
source order with the source bars' own timestamps; each emitted value is
the computed series' value at that exact timestamp when one exists there,
and `null` otherwise. -/
theorem alignIndicatorData_correct (series : List RawPoint) (bars : List OHLC) :
    (alignIndicatorData series bars).length = bars.length ∧
    (alignIndicatorData series bars).map AlignedPoint.time = bars.map OHLC.time ∧
    (∀ i, (alignIndicatorData series bars).get? i =
      (bars.get? i).map (fun b => ⟨b.time, jsMapGet series b.time⟩)) ∧
    (∀ i b, bars.get? i = some b →
      (((alignIndicatorData series bars).get? i).map AlignedPoint.value = some none ↔
        ∀ p ∈ series, p.time ≠ b.time)) ∧
    (∀ i b v, bars.get? i = some b →
      ((alignIndicatorData series bars).get? i).map AlignedPoint.value = some (some v) →
      RawPoint.mk b.time v ∈ series) := by
  refine ⟨by simp [alignIndicatorData], by simp [alignIndicatorData], ?_, ?_, ?_⟩
  · intro i
    simp [alignIndicatorData, List.get?_map]
  · intro i b hb
    simp only [alignIndicatorData, List.get?_map, hb, Option.map_some']
    rw [← jsMapGet_eq_none_iff series b.time]
    constructor
    · intro h; exact Option.some_injective _ h
    · intro h; rw [h]
  · intro i b v hb hv
    simp only [alignIndicatorData, List.get?_map, hb, Option.map_some'] at hv
    exact jsMapGet_mem_of_eq_some series b.time v (Option.some_injective _ hv)

/-- Three concrete bars at times 1, 2, 3 used in small evaluations. -/
def demoBars : List OHLC := [⟨1, 1, 1, 1, 1⟩, ⟨2, 2, 2, 2, 2⟩, ⟨3, 3, 3, 3, 3⟩]

/-- A concrete one-point computed series at time 2. -/
def demoSeries : List RawPoint := [⟨2, 5⟩]

/-- C1 witness: the theorem applied at a concrete three-bar input with a
one-point computed series (hypotheses of the conditional parts discharged
at index 1). -/
theorem alignIndicatorData_correct_witness :
    ((alignIndicatorData demoSeries demoBars).length = demoBars.length) ∧
    (demoBars.get? 1 = some ⟨2, 2, 2, 2, 2⟩) ∧
    ((alignIndicatorData demoSeries demoBars).get? 1).map AlignedPoint.value =
      some (some 5) ∧
    RawPoint.mk (2 : ℚ) 5 ∈ demoSeries := by
  refine ⟨(alignIndicatorData_correct demoSeries demoBars).1, by decide, by decide, ?_⟩
  exact (alignIndicatorData_correct demoSeries demoBars).2.2.2.2 1 ⟨2, 2, 2, 2, 2⟩ 5
    (by decide) (by decide)

/-- A JavaScript number extended with the IEEE special values reachable in
the calculations: NaN and the two infinities. Finite values are exact
rationals. -/
inductive JsVal where
  | num (q : ℚ)
  | nan
  | inf
  | negInf
  deriving Repr, DecidableEq, Inhabited

/-- JavaScript addition on `JsVal` (no signed zero; `Infinity + -Infinity`
is NaN, any NaN operand propagates). -/
def JsVal.add : JsVal → JsVal → JsVal
  | .num a, .num b => .num (a + b)
  | .nan, _ => .nan
  | _, .nan => .nan
  | .inf, .negInf => .nan
  | .negInf, .inf => .nan
  | .inf, _ => .inf
  | _, .inf => .inf
  | .negInf, _ => .negInf
  | _, .negInf => .negInf

/-- JavaScript subtraction on `JsVal`. -/
def JsVal.sub : JsVal → JsVal → JsVal
  | .num a, .num b => .num (a - b)
  | .nan, _ => .nan
  | _, .nan => .nan
  | .inf, .inf => .nan
  | .negInf, .negInf => .nan
  | .inf, _ => .inf
  | _, .inf => .negInf
  | .negInf, _ => .negInf
  | _, .negInf => .inf

/-- JavaScript division on `JsVal`: a nonzero finite value divided by zero
gives a signed infinity, `0 / 0` gives NaN, finite over infinite gives 0. -/
def JsVal.div : JsVal → JsVal → JsVal
  | .num a, .num b =>
      if b = 0 then (if a = 0 then .nan else if 0 < a then .inf else .negInf)
      else .num (a / b)
  | .nan, _ => .nan
  | _, .nan => .nan
  | .inf, .inf => .nan
  | .inf, .negInf => .nan
  | .negInf, .inf => .nan
  | .negInf, .negInf => .nan
  | .num _, .inf => .num 0
  | .num _, .negInf => .num 0
  | .inf, .num _ => .inf
  | .negInf, .num _ => .negInf

/-- A point pushed by the first-revision TypeScript built-ins: `{time,
value}` where the value is a JS number that may be NaN or infinite. -/
structure JsPoint where
  time : ℚ
  value : JsVal
  deriving Repr, DecidableEq, Inhabited

namespace DIC

/-!
Embedding of `DynamicIndicatorCalculator` from the FIRST revision of
`src/utils/dynamicIndicatorCalculator.ts` (the revision containing the
built-in SMA/EMA/RSI/MACD implementations and the web fallback).
-/

/-- Model of `calculateSMA` (lines 32-50): for each `i` from `period - 1` to
`data.length - 1`, push the arithmetic mean of the source field over the
window `[i - period + 1, i]` at `data[i].time`. -/
def calculateSMA (data : List OHLC) (parameters : Params) : List JsPoint :=
  let period := jsOr parameters.period 20
  let source := jsOrS parameters.source "close"
  ((List.range data.length).drop (period - 1)).map (fun i =>
    let window := (data.drop (i + 1 - period)).take period
    { time := (barAt data i).time
      value := .num ((window.map (fun b => getSource b source)).sum / period) })

/-- Recurrence loop of the first-revision TypeScript `calculateEMA`:
`ema = (price - ema) * multiplier + ema`, pushing one point per bar. -/
def emaLoopTs (source : String) (multiplier : ℚ) : ℚ → List OHLC → List JsPoint
  | _, [] => []
  | ema, b :: rest =>
      let e := (getSource b source - ema) * multiplier + ema
      ⟨b.time, .num e⟩ :: emaLoopTs source multiplier e rest

/-- Model of `calculateEMA` (lines 52-73): seeded with the source value of bar 0
(single-point seed, not an SMA seed), then the EMA recurrence over the
remaining bars; empty data gives an empty result. -/
def calculateEMA (data : List OHLC) (parameters : Params) : List JsPoint :=
  let period := jsOr parameters.period 20
  let source := jsOrS parameters.source "close"
  let multiplier := 2 / ((period : ℚ) + 1)
  match data with
  | [] => []
  | b0 :: rest =>
      ⟨b0.time, .num (getSource b0 source)⟩ ::
        emaLoopTs source multiplier (getSource b0 source) rest

/-- Close-to-close change at index `i ≥ 1`: `data[i].close - data[i-1].close`. -/
def changeAt (data : List OHLC) (i : ℕ) : ℚ :=
  (barAt data i).close - (barAt data (i - 1)).close

/-- Model of `calculateRSI` (lines 75-106): gains/losses lists over the changes,
then for each window the trailing simple averages and
`100 - 100 / (1 + avgGain / avgLoss)` computed with JavaScript float
semantics — there is no `avgLoss === 0` guard in this revision, so the
division is modelled by `JsVal.div`. -/
def calculateRSI (data : List OHLC) (parameters : Params) : List JsPoint :=
  let period := jsOr parameters.period 14
  if data.length < period + 1 then [] else
  let gains := (List.range (data.length - 1)).map (fun k =>
    let change := changeAt data (k + 1)
    if 0 < change then change else 0)
  let losses := (List.range (data.length - 1)).map (fun k =>
    let change := changeAt data (k + 1)
    if change < 0 then |change| else 0)
  ((List.range gains.length).drop (period - 1)).map (fun i =>
    let avgGain := (((gains.drop (i + 1 - period)).take period).sum) / period
    let avgLoss := (((losses.drop (i + 1 - period)).take period).sum) / period
    let rs := JsVal.div (.num avgGain) (.num avgLoss)
    let rsi := JsVal.sub (.num 100) (JsVal.div (.num 100) (JsVal.add (.num 1) rs))
    { time := (barAt data (i + 1)).time, value := rsi })

/-- Model of `calculateMACD` (lines 108-129): fast and slow EMA via the built-in
`calculateEMA` with source `close`, then an index-zipped difference over
the common prefix (both EMAs span all bars in this revision, and the
truthiness test `fastEMA[i] && slowEMA[i]` always holds in range). -/
def calculateMACD (data : List OHLC) (parameters : Params) : List JsPoint :=
  let fastPeriod := jsOr parameters.fastPeriod 12
  let slowPeriod := jsOr parameters.slowPeriod 26
  let fastEMA := calculateEMA data { period := fastPeriod, source := "close" }
  let slowEMA := calculateEMA data { period := slowPeriod, source := "close" }
  let minLength := min fastEMA.length slowEMA.length
  (List.range minLength).map (fun i =>
    { time := (fastEMA.get? i).elim 0 JsPoint.time
      value := JsVal.sub ((fastEMA.get? i).elim .nan JsPoint.value)
        ((slowEMA.get? i).elim .nan JsPoint.value) })

end DIC

namespace SmaJs

/-- Model of `calculateSMA` from the bundled plugin `data/indicators/sma.js`:
identical loop to the TypeScript built-in, computed over exact rationals
(no division by zero is reachable: the defaulted period is at least 1). -/
def calculateSMA (data : List OHLC) (parameters : Params) : List RawPoint :=
  let period := jsOr parameters.period 20
  let source := jsOrS parameters.source "close"
  ((List.range data.length).drop (period - 1)).map (fun i =>
    let window := (data.drop (i + 1 - period)).take period
    { time := (barAt data i).time
      value := (window.map (fun b => getSource b source)).sum / period })

end SmaJs

namespace RsiJs

/-- Inner loop of the plugin `data/indicators/rsi.js` (lines 24-31): for
`j` from `i - period + 1` to `i`, accumulate the positive changes into
gains and the absolute non-positive changes into losses. -/
def gainsLosses (data : List OHLC) (period i : ℕ) : ℚ × ℚ :=
  (List.range period).foldl (fun acc k =>
    let j := i + 1 + k - period
    let change := (barAt data j).close - (barAt data (j - 1)).close
    if 0 < change then (acc.1 + change, acc.2) else (acc.1, acc.2 + |change|))
    (0, 0)

/-- Model of `calculateRSI` from the bundled plugin `data/indicators/rsi.js`: one
output entry per source bar, `null` for the first `period` warm-up
positions, and for `i ≥ period` the value `100` when the trailing average
loss is exactly zero and `100 - 100 / (1 + avgGain / avgLoss)` otherwise. -/
def calculateRSI (data : List OHLC) (parameters : Params) : List AlignedPoint :=
  let period := jsOr parameters.period 14
  if data.length = 0 then [] else
  (List.range data.length).map (fun i =>
    if i < period then { time := (barAt data i).time, value := none }
    else
      let gl := gainsLosses data period i
      let avgGain := gl.1 / period
      let avgLoss := gl.2 / period
      if avgLoss = 0 then { time := (barAt data i).time, value := some 100 }
      else
        { time := (barAt data i).time
          value := some (100 - 100 / (1 + avgGain / avgLoss)) })

end RsiJs

namespace EmaJs

/-- Recurrence loop shared by the plugin EMA implementations:
`ema = value * multiplier + ema * (1 - multiplier)` over the remaining
bars, reading the given source field. -/
def emaLoop (source : String) (multiplier : ℚ) : ℚ → List OHLC → List RawPoint
  | _, [] => []
  | ema, b :: rest =>
      let e := getSource b source * multiplier + ema * (1 - multiplier)
      ⟨b.time, e⟩ :: emaLoop source multiplier e rest

/-- Model of `calculateEMA` from the bundled plugin `data/indicators/ema.js` (first
revision): fewer than `period` bars give an empty result; otherwise the
seed is the SMA of the first `period` source values, emitted at
`data[period - 1].time`, followed by the EMA recurrence. -/
def calculateEMA (data : List OHLC) (parameters : Params) : List RawPoint :=
  let period := jsOr parameters.period 20
  let source := jsOrS parameters.source "close"
  let multiplier := 2 / ((period : ℚ) + 1)
  if data.length < period then [] else
  let seed := ((data.take period).map (fun b => getSource b source)).sum / period
  ⟨(barAt data (period - 1)).time, seed⟩ ::
    emaLoop source multiplier seed (data.drop period)

end EmaJs

namespace MacdJs

/-!
Embedding of the final MACD plugin module (the second document in
`data/indicators/ema.js`, whose `calculateMACD` spans the full source
timeline with explicit nulls). The module has its own close-based
`calculateEMA` and a value-based `calculateEMAFromData`.
-/

/-- Recurrence loop of the module-local `calculateEMA` (close based). -/
def emaLoopC (multiplier : ℚ) : ℚ → List OHLC → List RawPoint
  | _, [] => []
  | ema, b :: rest =>
      let e := b.close * multiplier + ema * (1 - multiplier)
      ⟨b.time, e⟩ :: emaLoopC multiplier e rest

/-- Module-local `calculateEMA(data, period)`: SMA seed over the first
`period` closes at `data[period - 1].time`, then the recurrence; fewer
than `period` bars give an empty list. The module only calls it with a
defaulted (hence positive) period. -/
def calculateEMA (data : List OHLC) (period : ℕ) : List RawPoint :=
  if data.length < period then [] else
  let seed := ((data.take period).map OHLC.close).sum / period
  ⟨(barAt data (period - 1)).time, seed⟩ ::
    emaLoopC (2 / ((period : ℚ) + 1)) seed (data.drop period)

/-- Recurrence loop of `calculateEMAFromData` (reads `.value` of points). -/
def emaLoopV (multiplier : ℚ) : ℚ → List RawPoint → List RawPoint
  | _, [] => []
  | ema, p :: rest =>
      let e := p.value * multiplier + ema * (1 - multiplier)
      ⟨p.time, e⟩ :: emaLoopV multiplier e rest

/-- Model of `calculateEMAFromData(data, period)`: the same SMA-seeded EMA over a
list of raw points instead of bars. -/
def calculateEMAFromData (data : List RawPoint) (period : ℕ) : List RawPoint :=
  if data.length < period then [] else
  let seed := ((data.take period).map RawPoint.value).sum / period
  ⟨((data.get? (period - 1)).getD default).time, seed⟩ ::
    emaLoopV (2 / ((period : ℚ) + 1)) seed (data.drop period)

/-- First match of `list.find(p => p.time === t)` over aligned points. -/
def alignedFind (pts : List AlignedPoint) (t : ℚ) : Option AlignedPoint :=
  pts.find? (fun p => decide (p.time = t))

/-- The three outputs of the MACD plugin. -/
structure MacdResult where
  macd : List AlignedPoint
  signal : List AlignedPoint
  histogram : List AlignedPoint
  deriving Repr, DecidableEq

/-- The `macdLine` of `calculateMACD`: emitted for ALL source bars, with
the fast/slow EMA difference where both time-keyed maps have a value at
the bar's exact timestamp and `null` (warm-up) otherwise. -/
def macdLine (data : List OHLC) (fastPeriod slowPeriod : ℕ) : List AlignedPoint :=
  data.map (fun dataPoint =>
    match jsMapGet (calculateEMA data fastPeriod) dataPoint.time,
        jsMapGet (calculateEMA data slowPeriod) dataPoint.time with
    | some fastValue, some slowValue =>
        AlignedPoint.mk dataPoint.time (some (fastValue - slowValue))
    | _, _ => AlignedPoint.mk dataPoint.time none)

/-- Model of `macdLine.filter(point => point.value !== null)`, with the retained
(necessarily numeric) values read back out as raw points for
`calculateEMAFromData`. -/
def validMacdForSignal (data : List OHLC) (fastPeriod slowPeriod : ℕ) : List RawPoint :=
  (macdLine data fastPeriod slowPeriod).filterMap (fun p =>
    p.value.map (fun v => RawPoint.mk p.time v))

/-- The signal EMA computed only over the valid (non-null) MACD points. -/
def signalEMA (data : List OHLC) (fastPeriod slowPeriod signalPeriod : ℕ) :
    List RawPoint :=
  calculateEMAFromData (validMacdForSignal data fastPeriod slowPeriod) signalPeriod

/-- The complete signal line: one entry per source bar, null where the
signal EMA has no value at that timestamp. -/
def signalLine (data : List OHLC) (fastPeriod slowPeriod signalPeriod : ℕ) :
    List AlignedPoint :=
  data.map (fun dataPoint =>
    AlignedPoint.mk dataPoint.time
      (jsMapGet (signalEMA data fastPeriod slowPeriod signalPeriod) dataPoint.time))

/-- The histogram: one entry per source bar, `macd - signal` where `find`
locates both points with non-null values at the bar's timestamp, null
elsewhere. -/
def histogramLine (data : List OHLC) (fastPeriod slowPeriod signalPeriod : ℕ) :
    List AlignedPoint :=
  data.map (fun dataPoint =>
    match alignedFind (macdLine data fastPeriod slowPeriod) dataPoint.time,
        alignedFind (signalLine data fastPeriod slowPeriod signalPeriod) dataPoint.time with
    | some macdPoint, some signalPoint =>
        match macdPoint.value, signalPoint.value with
        | some mv, some sv => AlignedPoint.mk dataPoint.time (some (mv - sv))
        | _, _ => AlignedPoint.mk dataPoint.time none
    | _, _ => AlignedPoint.mk dataPoint.time none)

/-- Model of `calculateMACD(data, parameters)` from the final MACD module,
assembled from the named intermediate lines above. -/
def calculateMACD (data : List OHLC) (parameters : Params) : MacdResult :=
  let fastPeriod := jsOr parameters.fastPeriod 12
  let slowPeriod := jsOr parameters.slowPeriod 26
  let signalPeriod := jsOr parameters.signalPeriod 9
  ⟨macdLine data fastPeriod slowPeriod,
    signalLine data fastPeriod slowPeriod signalPeriod,
    histogramLine data fastPeriod slowPeriod signalPeriod⟩

end MacdJs

/-- C10. In every built-in and bundled plugin calculation, defaults are
applied with `||`, so a falsy caller-supplied parameter (period `0`,
source `""`) is silently replaced by the hard-coded default: period-0 SMA
behaves exactly as period-20 SMA, and likewise for EMA, RSI and MACD in
both the TypeScript built-ins and the plugin files — caller-supplied
values therefore do not always win over defaults at the calculation
boundary. -/
theorem falsy_parameters_replaced_by_defaults :
    (∀ data s, DIC.calculateSMA data { period := 0, source := s } =
      DIC.calculateSMA data { period := 20, source := s }) ∧
    (∀ data p, DIC.calculateSMA data { period := p, source := "" } =
      DIC.calculateSMA data { period := p, source := "close" }) ∧
    (∀ data s, DIC.calculateEMA data { period := 0, source := s } =
      DIC.calculateEMA data { period := 20, source := s }) ∧
    (∀ data, DIC.calculateRSI data { period := 0 } =
      DIC.calculateRSI data { period := 14 }) ∧
    (∀ data, DIC.calculateMACD data { fastPeriod := 0, slowPeriod := 0 } =
      DIC.calculateMACD data { fastPeriod := 12, slowPeriod := 26 }) ∧
    (∀ data s, SmaJs.calculateSMA data { period := 0, source := s } =
      SmaJs.calculateSMA data { period := 20, source := s }) ∧
    (∀ data p, SmaJs.calculateSMA data { period := p, source := "" } =
      SmaJs.calculateSMA data { period := p, source := "close" }) ∧
    (∀ data, RsiJs.calculateRSI data { period := 0 } =
      RsiJs.calculateRSI data { period := 14 }) ∧
    (∀ data s, EmaJs.calculateEMA data { period := 0, source := s } =
      EmaJs.calculateEMA data { period := 20, source := s }) ∧
    (∀ data, MacdJs.calculateMACD data
        { fastPeriod := 0, slowPeriod := 0, signalPeriod := 0 } =
      MacdJs.calculateMACD data
        { fastPeriod := 12, slowPeriod := 26, signalPeriod := 9 }) := by
  refine ⟨fun data s => rfl, fun data p => rfl, fun data s => rfl, fun data => rfl,
    fun data => rfl, fun data s => rfl, fun data p => rfl, fun data => rfl,
    fun data s => rfl, fun data => rfl⟩

/-- Three flat bars (all closes equal) at times 1, 2, 3. -/
def flatBars : List OHLC := [⟨1, 5, 5, 5, 5⟩, ⟨2, 5, 5, 5, 5⟩, ⟨3, 5, 5, 5, 5⟩]

theorem calculateRSI_ts_flat_eval :
    DIC.calculateRSI flatBars { period := 2 } = [⟨3, JsVal.nan⟩] := by
  norm_num [DIC.calculateRSI, DIC.changeAt, flatBars, jsOr, barAt, List.range_succ,
    JsVal.div, JsVal.add, JsVal.sub]

/-- C4 counterexample: the first-revision TypeScript `calculateRSI` has no
`avgLoss === 0` guard; over a flat window both averages are 0, `rs` is
`0 / 0 = NaN` and the emitted value is NaN — not a number in `[0, 100]`.
This refutes the claim that every value the RSI calculation outputs lies
in `[0, 100]` (and is `100`, not NaN, at zero average loss). -/
theorem calculateRSI_ts_flat_window_nan :
    ¬ (∀ p ∈ DIC.calculateRSI flatBars { period := 2 },
        ∃ q : ℚ, p.value = JsVal.num q ∧ 0 ≤ q ∧ q ≤ 100) := by
  intro h
  have hm : (⟨3, JsVal.nan⟩ : JsPoint) ∈ DIC.calculateRSI flatBars { period := 2 } := by
    rw [calculateRSI_ts_flat_eval]; exact List.mem_singleton.mpr rfl
  obtain ⟨q, hq, -, -⟩ := h _ hm
  simp at hq

theorem RsiJs.gainsLosses_nonneg (data : List OHLC) (period i : ℕ) :
    0 ≤ (RsiJs.gainsLosses data period i).1 ∧ 0 ≤ (RsiJs.gainsLosses data period i).2 := by
  unfold RsiJs.gainsLosses
  generalize List.range period = ks
  have H : ∀ (ks : List ℕ) (acc : ℚ × ℚ), 0 ≤ acc.1 → 0 ≤ acc.2 →
      0 ≤ (ks.foldl (fun acc k =>
        let j := i + 1 + k - period
        let change := (barAt data j).close - (barAt data (j - 1)).close
        if 0 < change then (acc.1 + change, acc.2) else (acc.1, acc.2 + |change|)) acc).1 ∧
      0 ≤ (ks.foldl (fun acc k =>
        let j := i + 1 + k - period
        let change := (barAt data j).close - (barAt data (j - 1)).close
        if 0 < change then (acc.1 + change, acc.2) else (acc.1, acc.2 + |change|)) acc).2 := by
    intro ks
    induction ks with
    | nil => intro acc h1 h2; exact ⟨h1, h2⟩
    | cons k ks ih =>
        intro acc h1 h2
        simp only [List.foldl_cons]
        split
        · rename_i hpos
          exact ih _ (by dsimp only; linarith) (by dsimp only; exact h2)
        · exact ih _ (by dsimp only; exact h1) (by dsimp only; positivity)
  exact H ks (0, 0) le_rfl le_rfl

theorem rsiValueFormula_range (g l : ℚ) (hg : 0 ≤ g) (hl : 0 ≤ l) (hne : l ≠ 0) :
    0 ≤ 100 - 100 / (1 + g / l) ∧ 100 - 100 / (1 + g / l) ≤ 100 := by
  have hlpos : 0 < l := lt_of_le_of_ne hl (Ne.symm hne)
  have hrs : 0 ≤ g / l := div_nonneg hg hl
  have hle : 100 / (1 + g / l) ≤ 100 := by
    have h1 : (1 : ℚ) ≤ 1 + g / l := by linarith
    calc 100 / (1 + g / l) ≤ 100 / 1 := by
          apply div_le_div_of_nonneg_left (by norm_num) (by norm_num) h1
      _ = 100 := by norm_num
  have hpos : 0 < 100 / (1 + g / l) := by positivity
  constructor <;> linarith

/-- C4 (amended). In the final plugin RSI (`data/indicators/rsi.js`),
every non-null output value lies in `[0, 100]`, and whenever the trailing
average loss of the window ending at a post-warm-up bar is exactly 0 the
output at that bar is exactly 100 — never Infinity or NaN. The claim as
stated fails only for the superseded first-revision TypeScript built-in
(flat-window NaN counterexample). -/
theorem calculateRSI_js_range (data : List OHLC) (parameters : Params) :
    (∀ p ∈ RsiJs.calculateRSI data parameters, ∀ v, p.value = some v →
      0 ≤ v ∧ v ≤ 100) ∧
    (∀ i, jsOr parameters.period 14 ≤ i → i < data.length →
      (RsiJs.gainsLosses data (jsOr parameters.period 14) i).2 /
        ((jsOr parameters.period 14 : ℕ) : ℚ) = 0 →
      (RsiJs.calculateRSI data parameters).get? i =
        some ⟨(barAt data i).time, some 100⟩) := by
  constructor
  · intro p hp v hv
    unfold RsiJs.calculateRSI at hp
    split at hp
    · simp at hp
    · simp only [List.mem_map, List.mem_range] at hp
      obtain ⟨i, -, hpe⟩ := hp
      by_cases hiw : i < jsOr parameters.period 14
      · rw [if_pos hiw] at hpe
        subst hpe; simp at hv
      · rw [if_neg hiw] at hpe
        by_cases hz : (RsiJs.gainsLosses data (jsOr parameters.period 14) i).2 /
            ((jsOr parameters.period 14 : ℕ) : ℚ) = 0
        · rw [if_pos hz] at hpe
          subst hpe
          obtain rfl : (100 : ℚ) = v := Option.some_injective _ hv
          norm_num
        · rw [if_neg hz] at hpe
          subst hpe
          obtain rfl := (Option.some_injective _ hv).symm
          obtain ⟨hg, hl⟩ := RsiJs.gainsLosses_nonneg data (jsOr parameters.period 14) i
          have hPne : jsOr parameters.period 14 ≠ 0 := by
            unfold jsOr; split <;> simp_all
          have hP : (0 : ℚ) < ((jsOr parameters.period 14 : ℕ) : ℚ) := by
            exact_mod_cast Nat.pos_of_ne_zero hPne
          exact rsiValueFormula_range
            ((RsiJs.gainsLosses data (jsOr parameters.period 14) i).1 /
              ((jsOr parameters.period 14 : ℕ) : ℚ))
            ((RsiJs.gainsLosses data (jsOr parameters.period 14) i).2 /
              ((jsOr parameters.period 14 : ℕ) : ℚ))
            (div_nonneg hg hP.le) (div_nonneg hl hP.le) hz
  · intro i hpi hilen hz
    unfold RsiJs.calculateRSI
    have hne : data.length ≠ 0 := by omega
    rw [if_neg hne]
    rw [List.get?_map, List.get?_range hilen]
    simp only [Option.map_some']
    rw [if_neg (by omega), if_pos hz]

theorem calculateRSI_js_flat_eval :
    RsiJs.calculateRSI flatBars { period := 2 } = [⟨1, none⟩, ⟨2, none⟩, ⟨3, some 100⟩] := by
  norm_num [RsiJs.calculateRSI, RsiJs.gainsLosses, flatBars, jsOr, barAt, List.range_succ]

/-- C4 witness: the amended theorem applied to the flat three-bar input
with period 2; at index 2 the average loss is 0 and the output is exactly
100, which indeed lies in `[0, 100]`. -/
theorem calculateRSI_js_range_witness :
    ((⟨3, some 100⟩ : AlignedPoint) ∈ RsiJs.calculateRSI flatBars { period := 2 } ∧
      (0 : ℚ) ≤ 100 ∧ (100 : ℚ) ≤ 100) ∧
    ((RsiJs.calculateRSI flatBars { period := 2 }).get? 2 =
      some ⟨(barAt flatBars 2).time, some 100⟩) := by
  have hmem : (⟨3, some 100⟩ : AlignedPoint) ∈ RsiJs.calculateRSI flatBars { period := 2 } := by
    rw [calculateRSI_js_flat_eval]; simp
  constructor
  · exact ⟨hmem, (calculateRSI_js_range flatBars { period := 2 }).1 ⟨3, some 100⟩ hmem
      100 rfl⟩
  · refine (calculateRSI_js_range flatBars { period := 2 }).2 2 (by decide) (by decide) ?_
    norm_num [RsiJs.gainsLosses, flatBars, jsOr, barAt, List.range_succ]

/-- The value (possibly null) of the point at position `i` of a line. -/
def valueAt (l : List AlignedPoint) (i : ℕ) : Option ℚ :=
  (l.get? i).bind AlignedPoint.value

theorem MacdJs.emaLoopC_times (m e : ℚ) (l : List OHLC) :
    (MacdJs.emaLoopC m e l).map RawPoint.time = l.map OHLC.time := by
  induction l generalizing e with
  | nil => rfl
  | cons b rest ih => simp [MacdJs.emaLoopC, ih]

theorem MacdJs.emaLoopV_times (m e : ℚ) (l : List RawPoint) :
    (MacdJs.emaLoopV m e l).map RawPoint.time = l.map RawPoint.time := by
  induction l generalizing e with
  | nil => rfl
  | cons b rest ih => simp [MacdJs.emaLoopV, ih]

theorem barAt_get (data : List OHLC) (i : ℕ) (hi : i < data.length) :
    barAt data i = data.get ⟨i, hi⟩ := by
  simp [barAt, List.get?_eq_get hi, List.getElem?_eq_getElem hi]

theorem MacdJs.calculateEMA_times (data : List OHLC) (p : ℕ) (hp : 1 ≤ p)
    (hlen : p ≤ data.length) :
    (MacdJs.calculateEMA data p).map RawPoint.time =
      (data.map OHLC.time).drop (p - 1) := by
  unfold MacdJs.calculateEMA
  rw [if_neg (by omega)]
  have hidx : p - 1 < data.length := by omega
  rw [List.map_cons, MacdJs.emaLoopC_times, ← List.map_drop,
    List.drop_eq_getElem_cons hidx, List.map_cons]
  have h1 : p - 1 + 1 = p := by omega
  rw [h1, barAt_get data (p - 1) hidx]
  simp

theorem MacdJs.calculateEMAFromData_times (pts : List RawPoint) (p : ℕ) (hp : 1 ≤ p)
    (hlen : p ≤ pts.length) :
    (MacdJs.calculateEMAFromData pts p).map RawPoint.time =
      (pts.map RawPoint.time).drop (p - 1) := by
  unfold MacdJs.calculateEMAFromData
  rw [if_neg (by omega)]
  have hidx : p - 1 < pts.length := by omega
  rw [List.map_cons, MacdJs.emaLoopV_times, ← List.map_drop,
    List.drop_eq_getElem_cons hidx, List.map_cons]
  have h1 : p - 1 + 1 = p := by omega
  rw [h1]
  simp [List.get?_eq_get hidx, List.getElem?_eq_getElem hidx]

theorem mem_drop_iff_of_nodup {α : Type} (l : List α) (hnd : l.Nodup) (i k : ℕ)
    (hi : i < l.length) : l.get ⟨i, hi⟩ ∈ l.drop k ↔ k ≤ i := by
  constructor
  · intro h
    obtain ⟨⟨j, hj⟩, hje⟩ := List.mem_iff_get.mp h
    have hj2 : k + j < l.length := by
      have := hj; simp [List.length_drop] at this; omega
    have hge : (l.drop k).get ⟨j, hj⟩ = l.get ⟨k + j, hj2⟩ := by
      simp [List.getElem_drop]
    rw [hge] at hje
    have hkj : k + j = i := by simpa using Fin.mk_eq_mk.mp (hnd.get_inj_iff.mp hje)
    omega
  · intro h
    have hj : i - k < (l.drop k).length := by simp [List.length_drop]; omega
    have hge : (l.drop k).get ⟨i - k, hj⟩ = l.get ⟨i, hi⟩ := by
      simp only [List.get_eq_getElem, List.getElem_drop]
      congr 1
      omega
    rw [← hge]
    exact List.get_mem _ _ _

theorem jsMapGet_isSome_iff (pts : List RawPoint) (t : ℚ) :
    (jsMapGet pts t).isSome ↔ t ∈ pts.map RawPoint.time := by
  have hms : (jsMapGet pts t).isSome =
      (pts.reverse.find? (fun p => decide (p.time = t))).isSome := by
    unfold jsMapGet
    cases pts.reverse.find? (fun p => decide (p.time = t)) <;> simp
  rw [hms, List.find?_isSome]
  simp only [List.mem_reverse, decide_eq_true_eq, List.mem_map]

theorem jsMapGet_drop_char (data : List OHLC) (hnd : (data.map OHLC.time).Nodup)
    (pts : List RawPoint) (k : ℕ)
    (hpts : pts.map RawPoint.time = (data.map OHLC.time).drop k)
    (i : ℕ) (hi : i < data.length) :
    (jsMapGet pts (barAt data i).time).isSome ↔ k ≤ i := by
  rw [jsMapGet_isSome_iff, hpts]
  have hi2 : i < (data.map OHLC.time).length := by simpa using hi
  have ht : (barAt data i).time = (data.map OHLC.time).get ⟨i, hi2⟩ := by
    rw [barAt_get data i hi]; simp
  rw [ht]
  exact mem_drop_iff_of_nodup _ hnd i k hi2

theorem jsMapGet_nil (t : ℚ) : jsMapGet [] t = none := rfl

theorem map_time_of_pointwise (l : List OHLC) (f : OHLC → AlignedPoint)
    (hf : ∀ b, (f b).time = b.time) :
    (l.map f).map AlignedPoint.time = l.map OHLC.time := by
  induction l with
  | nil => rfl
  | cons b rest ih => simp [hf, ih]

theorem MacdJs.macdPoint_value_isSome (t : ℚ) (o1 o2 : Option ℚ) :
    ((match o1, o2 with
      | some fastValue, some slowValue => AlignedPoint.mk t (some (fastValue - slowValue))
      | _, _ => AlignedPoint.mk t none).value).isSome ↔ o1.isSome ∧ o2.isSome := by
  cases o1 <;> cases o2 <;> simp

theorem MacdJs.macdPoint_time (t : ℚ) (o1 o2 : Option ℚ) :
    ((match o1, o2 with
      | some fastValue, some slowValue => AlignedPoint.mk t (some (fastValue - slowValue))
      | _, _ => AlignedPoint.mk t none) : AlignedPoint).time = t := by
  cases o1 <;> cases o2 <;> rfl

theorem MacdJs.macdLine_times (data : List OHLC) (F S : ℕ) :
    (MacdJs.macdLine data F S).map AlignedPoint.time = data.map OHLC.time := by
  unfold MacdJs.macdLine
  exact map_time_of_pointwise data _ (fun b => MacdJs.macdPoint_time b.time _ _)

theorem MacdJs.signalLine_times (data : List OHLC) (F S G : ℕ) :
    (MacdJs.signalLine data F S G).map AlignedPoint.time = data.map OHLC.time := by
  unfold MacdJs.signalLine
  exact map_time_of_pointwise data _ (fun b => rfl)

theorem MacdJs.calculateEMA_eq_nil (data : List OHLC) (p : ℕ) (h : data.length < p) :
    MacdJs.calculateEMA data p = [] := by
  unfold MacdJs.calculateEMA
  rw [if_pos h]

theorem MacdJs.valueAt_macdLine (data : List OHLC) (hnd : (data.map OHLC.time).Nodup)
    (F S : ℕ) (hF : 1 ≤ F) (hS : 1 ≤ S) (i : ℕ) (hi : i < data.length) :
    (valueAt (MacdJs.macdLine data F S) i).isSome ↔ max F S - 1 ≤ i := by
  unfold valueAt MacdJs.macdLine
  rw [List.get?_map, List.get?_eq_get hi, Option.map_some', Option.some_bind]
  rw [MacdJs.macdPoint_value_isSome]
  have hbt : (data.get ⟨i, hi⟩).time = (barAt data i).time := by
    rw [barAt_get data i hi]
  rw [hbt]
  by_cases hFlen : F ≤ data.length
  · have hfast := jsMapGet_drop_char data hnd _ (F - 1)
      (MacdJs.calculateEMA_times data F hF hFlen) i hi
    by_cases hSlen : S ≤ data.length
    · have hslow := jsMapGet_drop_char data hnd _ (S - 1)
        (MacdJs.calculateEMA_times data S hS hSlen) i hi
      rw [hfast, hslow]
      omega
    · rw [MacdJs.calculateEMA_eq_nil data S (by omega), jsMapGet_nil]
      simp only [Option.isSome_none, Bool.false_eq_true, and_false, false_iff]
      omega
  · rw [MacdJs.calculateEMA_eq_nil data F (by omega), jsMapGet_nil]
    simp only [Option.isSome_none, Bool.false_eq_true, false_and, false_iff]
    omega

theorem filterMap_raw_times_all_some (l : List AlignedPoint)
    (h : ∀ p ∈ l, p.value.isSome) :
    ((l.filterMap (fun p => p.value.map (fun v => RawPoint.mk p.time v))).map
      RawPoint.time) = l.map AlignedPoint.time := by
  induction l with
  | nil => rfl
  | cons p rest ih =>
      obtain ⟨v, hv⟩ := Option.isSome_iff_exists.mp (h p (by simp))
      simp only [List.filterMap_cons, hv, Option.map_some', List.map_cons]
      rw [ih (fun q hq => h q (by simp [hq]))]

theorem filterMap_raw_times (l : List AlignedPoint) (k : ℕ)
    (hchar : ∀ i, i < l.length → (((l.get? i).bind AlignedPoint.value).isSome ↔ k ≤ i)) :
    ((l.filterMap (fun p => p.value.map (fun v => RawPoint.mk p.time v))).map
      RawPoint.time) = (l.map AlignedPoint.time).drop k := by
  induction l generalizing k with
  | nil => simp
  | cons p rest ih =>
      cases k with
      | zero =>
          rw [List.drop_zero]
          apply filterMap_raw_times_all_some
          intro q hq
          obtain ⟨⟨j, hj⟩, hje⟩ := List.mem_iff_get.mp hq
          have := (hchar j (by simpa using hj)).mpr (Nat.zero_le j)
          rw [List.get?_eq_get (by simpa using hj)] at this
          simp only [List.get_eq_getElem] at hje
          simpa [hje] using this
      | succ j =>
          have h0 := hchar 0 (by simp)
          have hpv : p.value = none := by
            rcases hv : p.value with _ | v
            · rfl
            · exfalso
              have := h0.mp (by simp [hv])
              omega
          have hcr : ∀ i, i < rest.length →
              (((rest.get? i).bind AlignedPoint.value).isSome ↔ j ≤ i) := by
            intro i hi
            have := hchar (i + 1) (by simp; omega)
            simpa using this
          simp only [List.filterMap_cons, hpv, List.map_cons, List.drop_succ_cons]
          exact ih j hcr

theorem MacdJs.validMacd_times (data : List OHLC) (hnd : (data.map OHLC.time).Nodup)
    (F S : ℕ) (hF : 1 ≤ F) (hS : 1 ≤ S) :
    (MacdJs.validMacdForSignal data F S).map RawPoint.time =
      (data.map OHLC.time).drop (max F S - 1) := by
  unfold MacdJs.validMacdForSignal
  rw [filterMap_raw_times _ (max F S - 1), MacdJs.macdLine_times]
  intro i hi
  have hlen : i < data.length := by simpa [MacdJs.macdLine] using hi
  exact MacdJs.valueAt_macdLine data hnd F S hF hS i hlen

theorem MacdJs.valueAt_signalLine (data : List OHLC) (hnd : (data.map OHLC.time).Nodup)
    (F S G : ℕ) (hF : 1 ≤ F) (hS : 1 ≤ S) (hG : 1 ≤ G) (i : ℕ) (hi : i < data.length) :
    (valueAt (MacdJs.signalLine data F S G) i).isSome ↔ max F S + G - 2 ≤ i := by
  unfold valueAt MacdJs.signalLine
  rw [List.get?_map, List.get?_eq_get hi, Option.map_some', Option.some_bind]
  have hvt := MacdJs.validMacd_times data hnd F S hF hS
  have hvl : (MacdJs.validMacdForSignal data F S).length =
      data.length - (max F S - 1) := by
    have h1 := congrArg List.length hvt
    simpa using h1
  by_cases hGlen : G ≤ (MacdJs.validMacdForSignal data F S).length
  · have hsig := MacdJs.calculateEMAFromData_times _ G hG hGlen
    rw [hvt, List.drop_drop] at hsig
    have hchar := jsMapGet_drop_char data hnd _ _ hsig i hi
    rw [barAt_get data i hi] at hchar
    unfold MacdJs.signalEMA
    rw [hchar]
    omega
  · have hnil : MacdJs.signalEMA data F S G = [] := by
      unfold MacdJs.signalEMA MacdJs.calculateEMAFromData
      rw [if_pos (by omega)]
    rw [hnil, jsMapGet_nil]
    simp only [Option.isSome_none, Bool.false_eq_true, false_iff]
    omega

theorem MacdJs.alignedFind_get? (l : List AlignedPoint) (T : List ℚ)
    (hl : l.map AlignedPoint.time = T) (hnd : T.Nodup) (i : ℕ) (t : ℚ)
    (ht : T.get? i = some t) :
    MacdJs.alignedFind l t = l.get? i := by
  induction l generalizing T i with
  | nil =>
      subst hl
      simp at ht
  | cons p rest ih =>
      subst hl
      cases i with
      | zero =>
          simp only [List.map_cons, List.get?] at ht
          have htp : p.time = t := Option.some_injective _ ht
          unfold MacdJs.alignedFind
          simp [List.find?_cons, htp]
      | succ j =>
          rw [List.map_cons, List.nodup_cons] at hnd
          obtain ⟨hpn, hnd'⟩ := hnd
          have htj : (rest.map AlignedPoint.time).get? j = some t := by simpa using ht
          have htmem : t ∈ rest.map AlignedPoint.time := List.get?_mem htj
          have hne : p.time ≠ t := fun he => hpn (he ▸ htmem)
          have hstep : MacdJs.alignedFind (p :: rest) t = MacdJs.alignedFind rest t := by
            unfold MacdJs.alignedFind
            rw [List.find?_cons]
            simp [hne]
          rw [hstep, ih (rest.map AlignedPoint.time) rfl hnd' j htj]
          simp

theorem MacdJs.histPoint_time (t : ℚ) (o1 o2 : Option AlignedPoint) :
    ((match o1, o2 with
      | some macdPoint, some signalPoint =>
          match macdPoint.value, signalPoint.value with
          | some mv, some sv => AlignedPoint.mk t (some (mv - sv))
          | _, _ => AlignedPoint.mk t none
      | _, _ => AlignedPoint.mk t none) : AlignedPoint).time = t := by
  rcases o1 with _ | mp
  · cases o2 <;> rfl
  · rcases o2 with _ | sp
    · rfl
    · rcases hmv : mp.value with _ | mv <;> rcases hsv : sp.value with _ | sv <;>
        simp [hmv, hsv]

theorem MacdJs.histogramLine_times (data : List OHLC) (F S G : ℕ) :
    (MacdJs.histogramLine data F S G).map AlignedPoint.time = data.map OHLC.time := by
  unfold MacdJs.histogramLine
  exact map_time_of_pointwise data _ (fun b => MacdJs.histPoint_time b.time _ _)

theorem MacdJs.valueAt_histogramLine (data : List OHLC)
    (hnd : (data.map OHLC.time).Nodup) (F S G : ℕ)
    (hF : 1 ≤ F) (hS : 1 ≤ S) (hG : 1 ≤ G) (i : ℕ) (hi : i < data.length) :
    (valueAt (MacdJs.histogramLine data F S G) i).isSome ↔ max F S + G - 2 ≤ i := by
  have hmv := MacdJs.valueAt_macdLine data hnd F S hF hS i hi
  have hsv := MacdJs.valueAt_signalLine data hnd F S G hF hS hG i hi
  have hTt : (data.map OHLC.time).get? i = some ((data.get ⟨i, hi⟩).time) := by
    rw [List.get?_map, List.get?_eq_get hi, Option.map_some']
  have hfm := MacdJs.alignedFind_get? _ _ (MacdJs.macdLine_times data F S) hnd i _ hTt
  have hfs := MacdJs.alignedFind_get? _ _ (MacdJs.signalLine_times data F S G) hnd i _ hTt
  have hmlen : i < (MacdJs.macdLine data F S).length := by
    simpa [MacdJs.macdLine] using hi
  have hslen : i < (MacdJs.signalLine data F S G).length := by
    simpa [MacdJs.signalLine] using hi
  unfold valueAt MacdJs.histogramLine
  rw [List.get?_map, List.get?_eq_get hi, Option.map_some', Option.some_bind]
  rw [hfm, hfs, List.get?_eq_get hmlen, List.get?_eq_get hslen]
  unfold valueAt at hmv hsv
  rw [List.get?_eq_get hmlen, Option.some_bind] at hmv
  rw [List.get?_eq_get hslen, Option.some_bind] at hsv
  rcases hmo : ((MacdJs.macdLine data F S).get ⟨i, hmlen⟩).value with _ | mv <;>
    rcases hso : ((MacdJs.signalLine data F S G).get ⟨i, hslen⟩).value with _ | sv <;>
    rw [hmo] at hmv <;> rw [hso] at hsv <;>
    simp only [Option.isSome_none, Option.isSome_some, Bool.false_eq_true,
      false_iff, true_iff] at hmv hsv <;>
    simp only [hmo, hso] <;> simp <;> omega

theorem jsOr_pos (n d : ℕ) (hd : 1 ≤ d) : 1 ≤ jsOr n d := by
  unfold jsOr; split <;> omega

/-- The amended full-timeline property of the final MACD plugin: all three
outputs have one entry per source bar with the source time sequence;
the MACD line is non-null exactly from the longer EMA warm-up
(`max(fast, slow) - 1`) on, while the signal line and the histogram are
non-null exactly from `max(fast, slow) + signalPeriod - 2` on — the
signal/histogram null prefix strictly extends the MACD null prefix
whenever `signalPeriod > 1`, so the three null sets are NOT identical in
general. -/
def MacdTimelineSpec (data : List OHLC) (parameters : Params) : Prop :=
  ((MacdJs.calculateMACD data parameters).macd.length = data.length ∧
    (MacdJs.calculateMACD data parameters).signal.length = data.length ∧
    (MacdJs.calculateMACD data parameters).histogram.length = data.length) ∧
  ((MacdJs.calculateMACD data parameters).macd.map AlignedPoint.time =
      data.map OHLC.time ∧
    (MacdJs.calculateMACD data parameters).signal.map AlignedPoint.time =
      data.map OHLC.time ∧
    (MacdJs.calculateMACD data parameters).histogram.map AlignedPoint.time =
      data.map OHLC.time) ∧
  (∀ i, i < data.length →
    ((valueAt (MacdJs.calculateMACD data parameters).macd i).isSome ↔
      max (jsOr parameters.fastPeriod 12) (jsOr parameters.slowPeriod 26) - 1 ≤ i)) ∧
  (∀ i, i < data.length →
    ((valueAt (MacdJs.calculateMACD data parameters).signal i).isSome ↔
      max (jsOr parameters.fastPeriod 12) (jsOr parameters.slowPeriod 26) +
        jsOr parameters.signalPeriod 9 - 2 ≤ i)) ∧
  (∀ i, i < data.length →
    ((valueAt (MacdJs.calculateMACD data parameters).histogram i).isSome ↔
      max (jsOr parameters.fastPeriod 12) (jsOr parameters.slowPeriod 26) +
        jsOr parameters.signalPeriod 9 - 2 ≤ i))

/-- C3 (amended). For source bars with pairwise-distinct timestamps, the
three MACD outputs each span the full source timeline (equal length, same
time sequence, one entry per source timestamp in source order), with null
exactly in each output's own warm-up: the MACD line up to the longer EMA
warm-up, the signal line and histogram up to the longer EMA warm-up plus
the signal EMA warm-up. The original claim's "null in identical warm-up
positions" for all three outputs fails (see the counterexample); only the
lengths/timeline part and the per-output characterization hold. -/
theorem calculateMACD_timeline (data : List OHLC) (parameters : Params)
    (hnd : (data.map OHLC.time).Nodup) : MacdTimelineSpec data parameters := by
  have hF : 1 ≤ jsOr parameters.fastPeriod 12 := jsOr_pos _ _ (by norm_num)
  have hS : 1 ≤ jsOr parameters.slowPeriod 26 := jsOr_pos _ _ (by norm_num)
  have hG : 1 ≤ jsOr parameters.signalPeriod 9 := jsOr_pos _ _ (by norm_num)
  unfold MacdTimelineSpec MacdJs.calculateMACD
  dsimp only
  refine ⟨⟨?_, ?_, ?_⟩, ⟨MacdJs.macdLine_times data _ _,
    MacdJs.signalLine_times data _ _ _, MacdJs.histogramLine_times data _ _ _⟩,
    fun i hi => MacdJs.valueAt_macdLine data hnd _ _ hF hS i hi,
    fun i hi => MacdJs.valueAt_signalLine data hnd _ _ _ hF hS hG i hi,
    fun i hi => MacdJs.valueAt_histogramLine data hnd _ _ _ hF hS hG i hi⟩
  · simp [MacdJs.macdLine]
  · simp [MacdJs.signalLine]
  · simp [MacdJs.histogramLine]

/-- Five bars with distinct times 1..5 and increasing closes. -/
def demoMacdBars : List OHLC :=
  [⟨1, 1, 1, 1, 1⟩, ⟨2, 2, 2, 2, 2⟩, ⟨3, 3, 3, 3, 3⟩, ⟨4, 4, 4, 4, 4⟩, ⟨5, 5, 5, 5, 5⟩]

/-- C3 counterexample: with `fastPeriod = 2`, `slowPeriod = 3`,
`signalPeriod = 2` over five bars, position 2 is non-null in the MACD line
(the longer EMA warm-up is over) but still null in the signal line (its
extra signal-EMA warm-up is not) — the three outputs do NOT carry null in
identical warm-up positions. -/
theorem calculateMACD_null_positions_differ :
    (valueAt (MacdJs.calculateMACD demoMacdBars
        { fastPeriod := 2, slowPeriod := 3, signalPeriod := 2 }).macd 2).isSome ∧
    ¬ (valueAt (MacdJs.calculateMACD demoMacdBars
        { fastPeriod := 2, slowPeriod := 3, signalPeriod := 2 }).signal 2).isSome := by
  have hnd : (demoMacdBars.map OHLC.time).Nodup := by decide
  constructor
  · have h := MacdJs.valueAt_macdLine demoMacdBars hnd 2 3 (by norm_num) (by norm_num)
      2 (by decide)
    exact h.mpr (by norm_num)
  · intro hs
    have h := MacdJs.valueAt_signalLine demoMacdBars hnd 2 3 2 (by norm_num)
      (by norm_num) (by norm_num) 2 (by decide)
    have := h.mp hs
    omega

/-- C3 witness: the amended theorem applied to the five distinct-time demo
bars with periods 2/3/2 (nodup hypothesis discharged by evaluation). -/
theorem calculateMACD_timeline_witness :
    (demoMacdBars.map OHLC.time).Nodup ∧
    MacdTimelineSpec demoMacdBars { fastPeriod := 2, slowPeriod := 3, signalPeriod := 2 } :=
  ⟨by decide, calculateMACD_timeline demoMacdBars _ (by decide)⟩

/-- Target pane of an indicator instance. -/
inductive Pane where
  | main
  | sub
  deriving Repr, DecidableEq, Inhabited

/-- Display style of an indicator instance (string fields as in the
source; absent values encoded by the falsy `""` / `0`). -/
structure Style where
  color : String := ""
  lineWidth : ℕ := 0
  lineStyle : String := ""
  deriving Repr, DecidableEq, Inhabited

/-- An active indicator instance as consumed by the calculators and the
chart components (`ActiveIndicator` of `indicator.types.ts`): unique
instance `id`, the definition `baseId` it was created from (possibly
absent, encoded `""`), parameter values, pane and style. -/
structure ActiveIndicator where
  id : String
  baseId : String := ""
  name : String := ""
  pane : Pane := .main
  isActive : Bool := true
  values : Params := {}
  style : Style := {}
  deriving Repr, DecidableEq, Inhabited

namespace DIC

/-- Model of `calculateBuiltInIndicator` (first revision, lines 16-30): dispatch on
`activeIndicator.baseId || activeIndicator.id` over the four well-known
ids; any other id yields `null` (no built-in). -/
def calculateBuiltInIndicator (activeIndicator : ActiveIndicator) (data : List OHLC) :
    Option (List JsPoint) :=
  let baseId := jsOrS activeIndicator.baseId activeIndicator.id
  if baseId = "sma" then some (calculateSMA data activeIndicator.values)
  else if baseId = "ema" then some (calculateEMA data activeIndicator.values)
  else if baseId = "rsi" then some (calculateRSI data activeIndicator.values)
  else if baseId = "macd" then some (calculateMACD data activeIndicator.values)
  else none

/-- An externally loaded calculation routine: may throw (modelled by
`Except Unit`), otherwise returns a single raw series of JS points. -/
def PluginFn : Type := List OHLC → Params → Except Unit (List JsPoint)

/-- The Electron/browser environment the first-revision
`calculateIndicator` probes: whether `window.require` exists, and what
requiring the indicator file for a given base id yields (the require call
itself may throw, e.g. file not found). -/
structure PluginEnv where
  hasRequire : Bool
  loadModule : String → Except Unit (List (String × PluginFn))

/-- Model of `calculationModule[functionName]`: look up an exported function by
name in the loaded module. -/
def lookupExport (calculationModule : List (String × PluginFn)) (functionName : String) :
    Option PluginFn :=
  (calculationModule.find? (fun e => decide (e.1 = functionName))).map Prod.snd

/-- Result of the first-revision `calculateIndicator` (data may contain
IEEE special values). -/
structure IndicatorResult where
  id : String
  name : String
  type : String
  data : List JsPoint
  color : String
  lineWidth : ℕ
  lineStyle : String
  deriving Repr, DecidableEq

/-- Model of `calculateIndicator` (first revision, lines 131-183). With
`window.require` available: require the `<baseId>.js` module (a throw is
caught and yields the empty result list), look up `calculate<BASEID>`
(missing: warn, empty result), invoke it (a throw is caught by the
surrounding try/catch and yields the EMPTY result list — there is no
fallback to the built-ins on a plugin throw). Without `window.require`:
use the built-in calculation, or the empty result if none exists. -/
def calculateIndicator (env : PluginEnv) (activeIndicator : ActiveIndicator)
    (data : List OHLC) : List IndicatorResult :=
  let baseId := jsOrS activeIndicator.baseId activeIndicator.id
  if env.hasRequire then
    match env.loadModule baseId with
    | .error _ => []
    | .ok calculationModule =>
        match lookupExport calculationModule ("calculate" ++ baseId.toUpper) with
        | none => []
        | some f =>
            match f data activeIndicator.values with
            | .error _ => []
            | .ok calculatedData =>
                [{ id := activeIndicator.id, name := activeIndicator.name,
                   type := "line", data := calculatedData,
                   color := jsOrS activeIndicator.values.color
                     (jsOrS activeIndicator.style.color "#2196F3"),
                   lineWidth := activeIndicator.style.lineWidth,
                   lineStyle := activeIndicator.style.lineStyle }]
  else
    match calculateBuiltInIndicator activeIndicator data with
    | some calculatedData =>
        [{ id := activeIndicator.id, name := activeIndicator.name,
           type := "line", data := calculatedData,
           color := jsOrS activeIndicator.values.color
             (jsOrS activeIndicator.style.color "#2196F3"),
           lineWidth := activeIndicator.style.lineWidth,
           lineStyle := activeIndicator.style.lineStyle }]
    | none => []

end DIC

/-- A plugin environment whose modules export, under the conventional
`calculate<BASEID>` name, a calculation routine that always throws. -/
def throwingEnv : DIC.PluginEnv :=
  { hasRequire := true
    loadModule := fun baseId => .ok [("calculate" ++ baseId.toUpper, fun _ _ => .error ())] }

/-- A web environment without `window.require`. -/
def noRequireEnv : DIC.PluginEnv :=
  { hasRequire := false
    loadModule := fun _ => .error () }

/-- A concrete SMA instance over the well-known id `sma`. -/
def smaIndicator : ActiveIndicator :=
  { id := "sma", baseId := "sma", name := "SMA", values := { period := 2 } }

/-- C6 counterexample: when the external `calculateSMA` throws, the
first-revision engine returns the EMPTY result for that instance even
though a built-in SMA for the same well-known id exists and would produce
a non-empty series — the catch clause does not fall back to the built-in,
refuting the claimed fallback behavior. -/
theorem calculateIndicator_no_builtin_fallback_on_throw :
    DIC.calculateIndicator throwingEnv smaIndicator demoBars = [] ∧
    ((DIC.calculateBuiltInIndicator smaIndicator demoBars).map List.length = some 2) := by
  constructor
  · simp [DIC.calculateIndicator, throwingEnv, DIC.lookupExport, smaIndicator, jsOrS]
  · simp [DIC.calculateBuiltInIndicator, DIC.calculateSMA, smaIndicator, demoBars,
      jsOr, jsOrS]

/-- C6 (amended). A throwing external routine is contained at the
calculation boundary: the instance yields an empty result (the engine
does NOT fall back to the built-in implementation on a plugin throw —
built-ins run only when the plugin environment itself is unavailable);
a throwing module load or a missing exported function likewise yield the
empty result; in the no-`require` environment the built-in (or the empty
result when none exists) is used. No failure propagates, and each
instance's result is computed independently of any other instance. -/
theorem calculateIndicator_error_containment :
    (∀ (env : DIC.PluginEnv) (ind : ActiveIndicator) (data : List OHLC)
        (calculationModule : List (String × DIC.PluginFn)) (f : DIC.PluginFn),
      env.hasRequire = true →
      env.loadModule (jsOrS ind.baseId ind.id) = .ok calculationModule →
      DIC.lookupExport calculationModule
        ("calculate" ++ (jsOrS ind.baseId ind.id).toUpper) = some f →
      f data ind.values = .error () →
      DIC.calculateIndicator env ind data = []) ∧
    (∀ (env : DIC.PluginEnv) (ind : ActiveIndicator) (data : List OHLC),
      env.hasRequire = true →
      env.loadModule (jsOrS ind.baseId ind.id) = .error () →
      DIC.calculateIndicator env ind data = []) ∧
    (∀ (env : DIC.PluginEnv) (ind : ActiveIndicator) (data : List OHLC)
        (calculationModule : List (String × DIC.PluginFn)),
      env.hasRequire = true →
      env.loadModule (jsOrS ind.baseId ind.id) = .ok calculationModule →
      DIC.lookupExport calculationModule
        ("calculate" ++ (jsOrS ind.baseId ind.id).toUpper) = none →
      DIC.calculateIndicator env ind data = []) ∧
    (∀ (env : DIC.PluginEnv) (ind : ActiveIndicator) (data : List OHLC),
      env.hasRequire = false →
      DIC.calculateIndicator env ind data =
        (match DIC.calculateBuiltInIndicator ind data with
         | some calculatedData =>
             [{ id := ind.id, name := ind.name, type := "line",
                data := calculatedData,
                color := jsOrS ind.values.color (jsOrS ind.style.color "#2196F3"),
                lineWidth := ind.style.lineWidth,
                lineStyle := ind.style.lineStyle }]
         | none => [])) := by
  refine ⟨?_, ?_, ?_, ?_⟩
  · intro env ind data calculationModule f hreq hload hfn hthrow
    unfold DIC.calculateIndicator
    rw [if_pos hreq, hload]
    dsimp only
    rw [hfn]
    dsimp only
    rw [hthrow]
  · intro env ind data hreq hload
    unfold DIC.calculateIndicator
    rw [if_pos hreq, hload]
  · intro env ind data calculationModule hreq hload hfn
    unfold DIC.calculateIndicator
    rw [if_pos hreq, hload]
    dsimp only
    rw [hfn]
  · intro env ind data hreq
    unfold DIC.calculateIndicator
    rw [if_neg (by simp [hreq])]

/-- C6 witness: the amended theorem applied to the throwing environment
and the no-`require` environment at the concrete SMA instance. -/
theorem calculateIndicator_error_containment_witness :
    DIC.calculateIndicator throwingEnv smaIndicator demoBars = [] ∧
    DIC.calculateIndicator noRequireEnv smaIndicator demoBars =
      (match DIC.calculateBuiltInIndicator smaIndicator demoBars with
       | some calculatedData =>
           [{ id := smaIndicator.id, name := smaIndicator.name, type := "line",
              data := calculatedData,
              color := jsOrS smaIndicator.values.color
                (jsOrS smaIndicator.style.color "#2196F3"),
              lineWidth := smaIndicator.style.lineWidth,
              lineStyle := smaIndicator.style.lineStyle }]
       | none => []) := by
  constructor
  · exact calculateIndicator_error_containment.1 throwingEnv smaIndicator demoBars
      [("calculate" ++ (jsOrS smaIndicator.baseId smaIndicator.id).toUpper,
        fun _ _ => .error ())]
      (fun _ _ => .error ()) rfl rfl (by simp [DIC.lookupExport]) rfl
  · exact calculateIndicator_error_containment.2.2.2 noRequireEnv smaIndicator demoBars rfl

/-- Second-revision `IndicatorResult` (`dynamicIndicatorCalculator.ts`,
lines 187-195): the data is the ALIGNED series, whose values may be null. -/
structure IndicatorResult where
  id : String
  name : String
  type : String
  data : List AlignedPoint
  color : String
  lineWidth : ℕ
  lineStyle : String
  deriving Repr, DecidableEq, Inhabited

/-- One entry of `MainChart`'s `indicatorSeriesMap` (the rendered-series
handle table): the data given to the chart series, display info, and the
owning instance. The opaque chart handle itself carries no further state
in the model. -/
structure SeriesMapEntry where
  data : List AlignedPoint
  color : String
  name : String
  baseIndicator : ActiveIndicator
  deriving Repr, DecidableEq, Inhabited

/-- Model of `Map.set` on a JavaScript string-keyed map: replace the value at an
existing key in place, otherwise append in insertion order. -/
def jsMapSet {α : Type} (m : List (String × α)) (k : String) (v : α) :
    List (String × α) :=
  if m.any (fun e => decide (e.1 = k)) then
    m.map (fun e => if e.1 = k then (k, v) else e)
  else m ++ [(k, v)]

/-- The reconciliation state of `MainChart`: the handle table
(`indicatorSeriesMap`, keyed by synthetic series id) and the rendered-id
set (`renderedIndicators`). -/
structure RenderState where
  indicatorSeriesMap : List (String × SeriesMapEntry)
  renderedIndicators : List String
  deriving Repr, DecidableEq, Inhabited

/-- The visible-window restriction of the add-indicator handler
(`MainChart.tsx`, lines 334-341): keep points between the first and last
visible bar times (`data[0]?.time || 0`, falling back to 0 on empty). -/
def visibleWindowFilter (data : List OHLC) (validData : List AlignedPoint) :
    List AlignedPoint :=
  let firstVisibleTime := ((data.head?).map OHLC.time).getD 0
  let lastVisibleTime := ((data.getLast?).map OHLC.time).getD 0
  validData.filter (fun point =>
    decide (firstVisibleTime ≤ point.time ∧ point.time ≤ lastVisibleTime))

/-- Per-series body of the add-indicator handler (`MainChart.tsx`, lines
310-351): filter the aligned data down to the non-null points (the NaN
and undefined checks of the source are vacuous over exact rationals),
skip the series if nothing remains, restrict to the visible window when
that restriction is non-empty, hand `dataToUse` to the chart primitive
and store the SAME `dataToUse` in the handle table keyed by `series.id`. -/
def addSeriesEntry (visData : List OHLC) (activeIndicator : ActiveIndicator)
    (series : IndicatorResult) : Option (String × SeriesMapEntry) :=
  let validData := series.data.filter (fun point => decide (point.value ≠ none))
  if validData.length = 0 then none
  else
    let visibleIndicatorData := visibleWindowFilter visData validData
    let dataToUse :=
      if 0 < visibleIndicatorData.length then visibleIndicatorData else validData
    some (series.id,
      { data := dataToUse, color := series.color, name := series.name,
        baseIndicator := activeIndicator })

/-- The main-pane restriction of the active instances. -/
def mainPaneOf (activeIndicators : List ActiveIndicator) : List ActiveIndicator :=
  activeIndicators.filter (fun indicator => decide (indicator.pane = Pane.main))

/-- The handle-table entries created for the newly added instances: every
instance not yet rendered contributes one entry per surviving series of
its (completed) calculation. -/
def newEntriesOf (calcFn : ActiveIndicator → List IndicatorResult)
    (visData : List OHLC) (st : RenderState)
    (activeIndicators : List ActiveIndicator) : List (String × SeriesMapEntry) :=
  ((mainPaneOf activeIndicators).filter
      (fun ind => decide (ind.id ∉ st.renderedIndicators))).flatMap
    (fun ind => (calcFn ind).filterMap (addSeriesEntry visData ind))

/-- The indicator reconciliation effect of `MainChart.tsx` (lines
253-361), with each instance's asynchronous calculation represented by
its completed result `calc`: remove every handle owned by a previously
rendered id that is no longer in the current main-pane id set, compute
and add handles for every current main-pane instance not yet rendered,
and set `renderedIndicators` to the current id set. -/
def reconcileIndicators (calcFn : ActiveIndicator → List IndicatorResult)
    (visData : List OHLC) (st : RenderState)
    (activeIndicators : List ActiveIndicator) : RenderState :=
  let currentIndicatorIds := (mainPaneOf activeIndicators).map ActiveIndicator.id
  let indicatorIdsToRemove := st.renderedIndicators.filter
    (fun id => decide (id ∉ currentIndicatorIds))
  let table1 := st.indicatorSeriesMap.filter
    (fun e => decide (e.2.baseIndicator.id ∉ indicatorIdsToRemove))
  { indicatorSeriesMap :=
      (newEntriesOf calcFn visData st activeIndicators).foldl
        (fun t e => jsMapSet t e.1 e.2) table1
    renderedIndicators := currentIndicatorIds }

/-- The instance ids owning at least one handle in the table. -/
def ownerIds (st : RenderState) : List String :=
  st.indicatorSeriesMap.map (fun e => e.2.baseIndicator.id)

/-- Invariant: every handle's owner is a rendered id. -/
def OwnersRendered (st : RenderState) : Prop :=
  ∀ e ∈ st.indicatorSeriesMap, e.2.baseIndicator.id ∈ st.renderedIndicators

/-- Invariant: every rendered id owns at least one handle. -/
def RenderedOwn (st : RenderState) : Prop :=
  ∀ id ∈ st.renderedIndicators, id ∈ ownerIds st

theorem mem_jsMapSet {α : Type} (m : List (String × α)) (k : String) (v : α)
    (e : String × α) (h : e ∈ jsMapSet m k v) : e ∈ m ∨ e = (k, v) := by
  unfold jsMapSet at h
  split at h
  · obtain ⟨x, hx, hxe⟩ := List.mem_map.mp h
    by_cases hk : x.1 = k
    · right; rw [if_pos hk] at hxe; exact hxe.symm
    · left; rw [if_neg hk] at hxe; exact hxe ▸ hx
  · rcases List.mem_append.mp h with hm | hm
    · exact Or.inl hm
    · right; simpa using hm

theorem mem_foldl_jsMapSet {α : Type} (l : List (String × α))
    (t : List (String × α)) (e : String × α)
    (h : e ∈ l.foldl (fun acc x => jsMapSet acc x.1 x.2) t) : e ∈ t ∨ e ∈ l := by
  induction l generalizing t with
  | nil => exact Or.inl h
  | cons x rest ih =>
      rcases ih _ h with hm | hm
      · rcases mem_jsMapSet _ _ _ _ hm with hm2 | hm2
        · exact Or.inl hm2
        · right; rw [hm2]; simp
      · right; right; exact hm

theorem jsMapSet_of_fresh {α : Type} (m : List (String × α)) (k : String) (v : α)
    (h : ∀ e ∈ m, e.1 ≠ k) : jsMapSet m k v = m ++ [(k, v)] := by
  have hcond : (m.any (fun e => decide (e.1 = k))) = false := by
    rw [List.any_eq_false]
    intro e hmem
    simp [h e hmem]
  simp [jsMapSet, hcond]

theorem foldl_jsMapSet_of_fresh {α : Type} (l t : List (String × α))
    (hfresh : ∀ e ∈ l, ∀ x ∈ t, e.1 ≠ x.1)
    (hnd : (l.map Prod.fst).Nodup) :
    l.foldl (fun acc x => jsMapSet acc x.1 x.2) t = t ++ l := by
  induction l generalizing t with
  | nil => simp
  | cons x rest ih =>
      rw [List.map_cons, List.nodup_cons] at hnd
      obtain ⟨hxn, hnd'⟩ := hnd
      have hstep : jsMapSet t x.1 x.2 = t ++ [(x.1, x.2)] := by
        apply jsMapSet_of_fresh
        intro e he
        exact (hfresh x (List.mem_cons_self x rest) e he).symm
      simp only [List.foldl_cons, hstep]
      rw [ih (t ++ [(x.1, x.2)])]
      · simp
      · intro e he y hy
        rcases List.mem_append.mp hy with hy1 | hy1
        · exact hfresh e (by simp [he]) y hy1
        · have hy2 : y = (x.1, x.2) := by simpa using hy1
          rw [hy2]
          intro hek
          exact hxn (hek ▸ List.mem_map_of_mem Prod.fst he)
      · exact hnd'

theorem addSeriesEntry_owner (visData : List OHLC) (ind : ActiveIndicator)
    (series : IndicatorResult) (e : String × SeriesMapEntry)
    (h : addSeriesEntry visData ind series = some e) :
    e.2.baseIndicator = ind ∧ e.1 = series.id := by
  simp only [addSeriesEntry] at h
  split at h
  · exact absurd h (by simp)
  · have he := Option.some_injective _ h
    rw [← he]
    exact ⟨rfl, rfl⟩

theorem reconcile_owner_subset (calcFn : ActiveIndicator → List IndicatorResult)
    (visData : List OHLC) (st : RenderState)
    (activeIndicators : List ActiveIndicator) (hOR : OwnersRendered st) :
    ∀ e ∈ (reconcileIndicators calcFn visData st activeIndicators).indicatorSeriesMap,
      e.2.baseIndicator.id ∈ (mainPaneOf activeIndicators).map ActiveIndicator.id := by
  intro e he
  unfold reconcileIndicators at he
  dsimp only at he
  rcases mem_foldl_jsMapSet _ _ _ he with h1 | h2
  · obtain ⟨hmem, hcond⟩ := List.mem_filter.mp h1
    simp only [decide_eq_true_eq] at hcond
    have hown := hOR e hmem
    by_contra hnc
    exact hcond (List.mem_filter.mpr ⟨hown, by simpa using hnc⟩)
  · obtain ⟨ind, hind, hef⟩ := List.mem_flatMap.mp h2
    obtain ⟨series, -, hse⟩ := List.mem_filterMap.mp hef
    obtain ⟨hbase, -⟩ := addSeriesEntry_owner visData ind series e hse
    rw [hbase]
    exact List.mem_map_of_mem ActiveIndicator.id (List.mem_filter.mp hind).1

theorem reconcile_owner_superset (calcFn : ActiveIndicator → List IndicatorResult)
    (visData : List OHLC) (st : RenderState)
    (activeIndicators : List ActiveIndicator)
    (hRO : RenderedOwn st)
    (hnd : ((newEntriesOf calcFn visData st activeIndicators).map Prod.fst).Nodup)
    (hfresh : ∀ e ∈ newEntriesOf calcFn visData st activeIndicators,
      ∀ x ∈ st.indicatorSeriesMap, e.1 ≠ x.1)
    (hprod : ∀ ind ∈ mainPaneOf activeIndicators, ind.id ∉ st.renderedIndicators →
      (calcFn ind).filterMap (addSeriesEntry visData ind) ≠ []) :
    ∀ id ∈ (mainPaneOf activeIndicators).map ActiveIndicator.id,
      id ∈ ownerIds (reconcileIndicators calcFn visData st activeIndicators) := by
  intro id hid
  obtain ⟨ind, hind, rfl⟩ := List.mem_map.mp hid
  have htbl : (reconcileIndicators calcFn visData st activeIndicators).indicatorSeriesMap =
      (st.indicatorSeriesMap.filter (fun e => decide (e.2.baseIndicator.id ∉
        st.renderedIndicators.filter (fun id => decide (id ∉
          (mainPaneOf activeIndicators).map ActiveIndicator.id))))) ++
      newEntriesOf calcFn visData st activeIndicators := by
    unfold reconcileIndicators
    dsimp only
    apply foldl_jsMapSet_of_fresh
    · intro e he x hx
      exact hfresh e he x (List.mem_filter.mp hx).1
    · exact hnd
  unfold ownerIds
  rw [htbl]
  by_cases hrend : ind.id ∈ st.renderedIndicators
  · obtain ⟨x, hx, hxid⟩ := List.mem_map.mp (hRO ind.id hrend)
    have hkeep : x ∈ st.indicatorSeriesMap.filter (fun e => decide (e.2.baseIndicator.id ∉
        st.renderedIndicators.filter (fun id => decide (id ∉
          (mainPaneOf activeIndicators).map ActiveIndicator.id)))) := by
      refine List.mem_filter.mpr ⟨hx, ?_⟩
      simp only [decide_eq_true_eq]
      intro hrm
      have hcond := (List.mem_filter.mp hrm).2
      simp only [decide_eq_true_eq] at hcond
      exact hcond (hxid ▸ hid)
    rw [List.map_append]
    exact List.mem_append.mpr (Or.inl (hxid ▸ List.mem_map_of_mem _ hkeep))
  · have hne := hprod ind hind hrend
    obtain ⟨e, hef⟩ := List.exists_mem_of_ne_nil _ hne
    have hmemnew : e ∈ newEntriesOf calcFn visData st activeIndicators := by
      unfold newEntriesOf
      exact List.mem_flatMap.mpr ⟨ind,
        List.mem_filter.mpr ⟨hind, by simpa using hrend⟩, hef⟩
    obtain ⟨series, -, hse⟩ := List.mem_filterMap.mp hef
    obtain ⟨hbase, -⟩ := addSeriesEntry_owner visData ind series e hse
    rw [List.map_append]
    refine List.mem_append.mpr (Or.inr ?_)
    have hmm : e.2.baseIndicator.id ∈
        (newEntriesOf calcFn visData st activeIndicators).map
          (fun e => e.2.baseIndicator.id) :=
      List.mem_map_of_mem _ hmemnew
    rw [hbase] at hmm
    exact hmm

/-- C2 (amended). For the main-pane reconciliation of `MainChart`: (i)
starting from a state whose handles are all owned by rendered ids, after
reconciliation every remaining handle is owned by a current main-pane
active instance — no handle survives for a removed instance and the
owner-invariant is preserved; (ii) `renderedIndicators` becomes exactly
the current main-pane id set; (iii) if additionally every rendered id
owned a handle, the freshly generated series keys are distinct and do not
collide with stored keys, and every not-yet-rendered current instance's
calculation yields at least one renderable (non-empty after null
filtering) series, then the handle-owning id set equals the current
main-pane active id set exactly. Without the productivity assumption the
claimed set equality fails (see the counterexample): an enabled instance
whose calculation yields no renderable series stays unrendered. -/
theorem reconciliation_owner_sets :
    (∀ (calcFn : ActiveIndicator → List IndicatorResult) (visData : List OHLC)
        (st : RenderState) (activeIndicators : List ActiveIndicator),
      OwnersRendered st →
      (∀ e ∈ (reconcileIndicators calcFn visData st activeIndicators).indicatorSeriesMap,
        e.2.baseIndicator.id ∈ (mainPaneOf activeIndicators).map ActiveIndicator.id) ∧
      OwnersRendered (reconcileIndicators calcFn visData st activeIndicators)) ∧
    (∀ calcFn visData st activeIndicators,
      (reconcileIndicators calcFn visData st activeIndicators).renderedIndicators =
        (mainPaneOf activeIndicators).map ActiveIndicator.id) ∧
    (∀ calcFn visData st activeIndicators,
      OwnersRendered st → RenderedOwn st →
      ((newEntriesOf calcFn visData st activeIndicators).map Prod.fst).Nodup →
      (∀ e ∈ newEntriesOf calcFn visData st activeIndicators,
        ∀ x ∈ st.indicatorSeriesMap, e.1 ≠ x.1) →
      (∀ ind ∈ mainPaneOf activeIndicators, ind.id ∉ st.renderedIndicators →
        (calcFn ind).filterMap (addSeriesEntry visData ind) ≠ []) →
      ∀ id, id ∈ ownerIds (reconcileIndicators calcFn visData st activeIndicators) ↔
        id ∈ (mainPaneOf activeIndicators).map ActiveIndicator.id) := by
  refine ⟨?_, ?_, ?_⟩
  · intro calcFn visData st activeIndicators hOR
    have hsub := reconcile_owner_subset calcFn visData st activeIndicators hOR
    exact ⟨hsub, fun e he => hsub e he⟩
  · intro calcFn visData st activeIndicators
    rfl
  · intro calcFn visData st activeIndicators hOR hRO hnd hfresh hprod id
    constructor
    · intro hown
      obtain ⟨e, he, heid⟩ := List.mem_map.mp hown
      exact heid ▸ reconcile_owner_subset calcFn visData st activeIndicators hOR e he
    · intro hid
      exact reconcile_owner_superset calcFn visData st activeIndicators hRO hnd
        hfresh hprod id hid

/-- C2 counterexample: an enabled main-pane instance whose calculation
yields no renderable series (here: the completed calculation is empty, as
happens when the plugin file is missing or its routine throws) ends up in
`renderedIndicators` but owns no handle — the handle-owning id set is
empty while the enabled active id set is not, refuting the claimed exact
set equality. -/
theorem reconcile_unproductive_instance_unrendered :
    ("sma" ∈ (mainPaneOf [smaIndicator]).map ActiveIndicator.id) ∧
    smaIndicator.isActive = true ∧
    ownerIds (reconcileIndicators (fun _ => []) [] ⟨[], []⟩ [smaIndicator]) = [] ∧
    (reconcileIndicators (fun _ => []) [] ⟨[], []⟩ [smaIndicator]).renderedIndicators =
      ["sma"] := by
  refine ⟨by decide, rfl, rfl, rfl⟩

/-- A calculation producing one renderable single-point series per
instance. -/
def calcOne : ActiveIndicator → List IndicatorResult := fun ind =>
  [{ id := ind.id, name := ind.name, type := "line", data := [⟨1, some 1⟩],
     color := "#2196F3", lineWidth := 2, lineStyle := "solid" }]

/-- C2 witness: the amended theorem applied to the empty initial state,
one enabled main-pane SMA instance and a productive calculation; the id
`sma` ends up owning a handle and the id sets agree at `sma` and at an
absent id. -/
theorem reconciliation_owner_sets_witness :
    (("sma" ∈ ownerIds (reconcileIndicators calcOne demoBars ⟨[], []⟩ [smaIndicator]) ↔
      "sma" ∈ (mainPaneOf [smaIndicator]).map ActiveIndicator.id) ∧
     ("zzz" ∈ ownerIds (reconcileIndicators calcOne demoBars ⟨[], []⟩ [smaIndicator]) ↔
      "zzz" ∈ (mainPaneOf [smaIndicator]).map ActiveIndicator.id)) ∧
    OwnersRendered (reconcileIndicators calcOne demoBars ⟨[], []⟩ [smaIndicator]) := by
  constructor
  · constructor
    · exact reconciliation_owner_sets.2.2 calcOne demoBars ⟨[], []⟩ [smaIndicator]
        (by intro e he; simp at he) (by intro id hid; simp at hid)
        (by decide) (by intro e he x hx; simp at hx) (by decide) "sma"
    · exact reconciliation_owner_sets.2.2 calcOne demoBars ⟨[], []⟩ [smaIndicator]
        (by intro e he; simp at he) (by intro id hid; simp at hid)
        (by decide) (by intro e he x hx; simp at hx) (by decide) "zzz"
  · exact (reconciliation_owner_sets.1 calcOne demoBars ⟨[], []⟩ [smaIndicator]
      (by intro e he; simp at he)).2

/-- An aligned single-series result whose data comes from
`alignIndicatorData` over the three demo bars (so it contains nulls). -/
def alignedSmaResult : IndicatorResult :=
  { id := "s", name := "n", type := "line",
    data := alignIndicatorData demoSeries demoBars,
    color := "c", lineWidth := 2, lineStyle := "solid" }

/-- C5 counterexample: the add-indicator handler stores the null-FILTERED
(and window-restricted) array in the handle table, not the full
gap-preserving aligned timeline: over three source bars whose aligned
series has one non-null point, the stored entry's data has length 1, not
3 — null points are dropped before the handle table, which is what the
tooltip lookup later reads. -/
theorem handle_table_data_not_full_timeline :
    ((addSeriesEntry demoBars smaIndicator alignedSmaResult).map
      (fun e => e.2.data.length)) = some 1 ∧
    alignedSmaResult.data.length = demoBars.length ∧
    demoBars.length = 3 ∧
    ((addSeriesEntry demoBars smaIndicator alignedSmaResult).map
      (fun e => e.2.data)) = some [⟨2, some 5⟩] := by
  refine ⟨by decide, by decide, by decide, by decide⟩

/-- C5 (amended). Null-valued points are dropped BEFORE the handle-table
store, not only at the drawing hand-off: the stored entry's data is
exactly the null-filtered aligned data, further restricted to the visible
window when that restriction is non-empty — and it is the same array the
drawing primitive receives. What does hold of the spec's intent: every
stored point is one of the original aligned points with its original
non-null value (null is never coerced to zero), and the full
gap-preserving timeline exists earlier in the pipeline — the aligned
series itself keeps one entry per source bar, with an explicit null
whenever the computed series has no value at that bar's timestamp. -/
theorem addSeriesEntry_filters_before_store :
    (∀ (visData : List OHLC) (ind : ActiveIndicator) (series : IndicatorResult)
        (e : String × SeriesMapEntry),
      addSeriesEntry visData ind series = some e →
      (e.1 = series.id ∧
       e.2.data =
         (if 0 < (visibleWindowFilter visData
             (series.data.filter (fun point => decide (point.value ≠ none)))).length
          then visibleWindowFilter visData
             (series.data.filter (fun point => decide (point.value ≠ none)))
          else series.data.filter (fun point => decide (point.value ≠ none))) ∧
       (∀ p ∈ e.2.data, p.value ≠ none ∧ p ∈ series.data))) ∧
    (∀ (seriesData : List RawPoint) (bars : List OHLC),
      (alignIndicatorData seriesData bars).length = bars.length ∧
      (∀ i b, bars.get? i = some b → (∀ q ∈ seriesData, q.time ≠ b.time) →
        (alignIndicatorData seriesData bars).get? i = some ⟨b.time, none⟩)) := by
  constructor
  · intro visData ind series e h
    simp only [addSeriesEntry] at h
    split at h
    · exact absurd h (by simp)
    · have he := Option.some_injective _ h
      have hdata : e.2.data =
          (if 0 < (visibleWindowFilter visData
              (series.data.filter (fun point => decide (point.value ≠ none)))).length
           then visibleWindowFilter visData
              (series.data.filter (fun point => decide (point.value ≠ none)))
           else series.data.filter (fun point => decide (point.value ≠ none))) := by
        rw [← he]
      refine ⟨by rw [← he], hdata, ?_⟩
      intro p hp
      rw [hdata] at hp
      have hpv : p ∈ series.data.filter (fun point => decide (point.value ≠ none)) := by
        rcases Decidable.em (0 < (visibleWindowFilter visData
            (series.data.filter (fun point => decide (point.value ≠ none)))).length)
          with hc | hc
        · rw [if_pos hc] at hp
          exact (List.mem_filter.mp hp).1
        · rwa [if_neg hc] at hp
      obtain ⟨hmem, hval⟩ := List.mem_filter.mp hpv
      simp only [decide_eq_true_eq] at hval
      exact ⟨hval, hmem⟩
  · intro seriesData bars
    constructor
    · simp [alignIndicatorData]
    · intro i b hb hnone
      unfold alignIndicatorData
      rw [List.get?_map, hb, Option.map_some']
      rw [(jsMapGet_eq_none_iff seriesData b.time).mpr hnone]

/-- C5 witness: the amended theorem applied at the concrete aligned demo
series; the stored entry keeps exactly the non-null point `⟨2, 5⟩` of the
original aligned data, and the aligned data itself has an explicit null at
bar 0 (time 1), where the computed series has no value. -/
theorem addSeriesEntry_filters_before_store_witness :
    (("s" : String) = alignedSmaResult.id ∧
      (⟨2, some 5⟩ : AlignedPoint).value ≠ none ∧
      (⟨2, some 5⟩ : AlignedPoint) ∈ alignedSmaResult.data) ∧
    ((alignIndicatorData demoSeries demoBars).length = demoBars.length ∧
      (alignIndicatorData demoSeries demoBars).get? 0 = some ⟨1, none⟩) := by
  have happ := addSeriesEntry_filters_before_store.1 demoBars smaIndicator
    alignedSmaResult ("s", SeriesMapEntry.mk [⟨2, some 5⟩] "c" "n" smaIndicator)
    (by decide)
  obtain ⟨hid, -, hpts⟩ := happ
  have hp := hpts ⟨2, some 5⟩ (by decide)
  refine ⟨⟨hid, hp.1, hp.2⟩, ?_, ?_⟩
  · exact (addSeriesEntry_filters_before_store.2 demoSeries demoBars).1
  · exact (addSeriesEntry_filters_before_store.2 demoSeries demoBars).2 0
      ⟨1, 1, 1, 1, 1⟩ (by decide) (by decide)

/-- A loosely typed parameter value as stored in the `{[key: string]: any}`
parameter objects of the persistence layer. -/
inductive ParamVal where
  | num (q : ℚ)
  | str (s : String)
  | flag (b : Bool)
  deriving Repr, DecidableEq

/-- Property read `m[k]` on a JavaScript object modelled as a key-value
list (object keys are unique; first occurrence wins). -/
def objGet (m : List (String × ParamVal)) (k : String) : Option ParamVal :=
  (m.find? (fun e => decide (e.1 = k))).map Prod.snd

/-- JavaScript object spread `{...a, ...b}`: the keys of `a` in order with
the values of `b` where `b` overrides, followed by the keys of `b` not in
`a`. -/
def objMerge (a b : List (String × ParamVal)) : List (String × ParamVal) :=
  a.map (fun e => (e.1, (objGet b e.1).getD e.2)) ++
    b.filter (fun e => decide (e.1 ∉ a.map Prod.fst))

namespace Store

/-- The persistence-side view of an active indicator instance: the same
TypeScript `ActiveIndicator`, but with its loosely typed parameter map
(`values: {[key: string]: any}`) kept as a key-value list, which is what
the configuration repository persists and merges. -/
structure ActiveIndicator where
  id : String
  baseId : String
  name : String
  pane : Pane := .main
  isActive : Bool := true
  values : List (String × ParamVal) := []
  style : Style := {}
  deriving Repr, DecidableEq, Inhabited

/-- A persisted indicator configuration
(`IndicatorConfigRepository.IndicatorConfiguration`). -/
structure IndicatorConfiguration where
  id : String
  symbolId : String
  indicatorId : String
  indicatorName : String
  parameters : List (String × ParamVal)
  style : Style
  pane : Pane
  isEnabled : Bool
  createdAt : ℚ
  updatedAt : ℚ
  deriving Repr, DecidableEq, Inhabited

/-- IndexedDB `put` on the `indicatorConfigs` object store (keyed by
`id`, via `BaseRepository.save` → `IndexedDBManager.put`): replace the
record with the same key, else insert. -/
def dbPut (store : List IndicatorConfiguration) (c : IndicatorConfiguration) :
    List IndicatorConfiguration :=
  if store.any (fun e => decide (e.id = c.id)) then
    store.map (fun e => if e.id = c.id then c else e)
  else store ++ [c]

/-- IndexedDB `delete` by key (via `BaseRepository.delete`). -/
def dbDelete (store : List IndicatorConfiguration) (id : String) :
    List IndicatorConfiguration :=
  store.filter (fun e => decide (e.id ≠ id))

/-- IndexedDB `get` by key (via `BaseRepository.get`). -/
def dbGet (store : List IndicatorConfiguration) (id : String) :
    Option IndicatorConfiguration :=
  store.find? (fun e => decide (e.id = id))

end Store

namespace IndicatorConfigRepository

/-- Model of `saveIndicatorConfig(symbolId, activeIndicator)` (lines 103-130):
persist a configuration whose KEY is the unique `activeIndicator.id`
(allowing several instances of one definition); `now` stands for
`new Date()`. -/
def saveIndicatorConfig (symbolId : String) (activeIndicator : Store.ActiveIndicator)
    (now : ℚ) (store : List Store.IndicatorConfiguration) :
    List Store.IndicatorConfiguration :=
  Store.dbPut store
    { id := activeIndicator.id
      symbolId := symbolId
      indicatorId := activeIndicator.baseId
      indicatorName := activeIndicator.name
      parameters := activeIndicator.values
      style := activeIndicator.style
      pane := activeIndicator.pane
      isEnabled := activeIndicator.isActive
      createdAt := now
      updatedAt := now }

/-- Model of `removeIndicatorConfig(activeIndicatorId)` (lines 154-162): delete by
the unique instance id. -/
def removeIndicatorConfig (activeIndicatorId : String)
    (store : List Store.IndicatorConfiguration) : List Store.IndicatorConfiguration :=
  Store.dbDelete store activeIndicatorId

/-- Model of `updateIndicatorParameters(symbolId, indicatorId, parameters)` (lines
195-218): look up the configuration under the COMPOSITE key
`` `${symbolId}_${indicatorId}` ``, and if present persist it with the
partial values spread over the existing parameter map; if absent, do
nothing (silently). -/
def updateIndicatorParameters (symbolId indicatorId : String)
    (parameters : List (String × ParamVal)) (now : ℚ)
    (store : List Store.IndicatorConfiguration) : List Store.IndicatorConfiguration :=
  let configId := symbolId ++ "_" ++ indicatorId
  match Store.dbGet store configId with
  | some existingConfig =>
      Store.dbPut store
        { existingConfig with
          parameters := objMerge existingConfig.parameters parameters
          updatedAt := now }
  | none => store

end IndicatorConfigRepository

namespace IndicatorManager

/-- A base indicator definition as selected in the UI (subset of fields
the manager reads). -/
structure Indicator where
  id : String
  name : String
  pane : Pane := .main
  style : Style := {}
  deriving Repr, DecidableEq, Inhabited

/-- Model of `addIndicator(indicator, parameters?, customStyle?)` (lines 119-149):
build an `ActiveIndicator` with the globally unique id
`` `indicator_${indicator.id}_${Date.now()}_${random}` `` (the generated
time-random part is the `idSuffix` argument), mark it active, and persist
it under symbol id `"global"`; returns the new instance and the updated
store. -/
def addIndicator (indicator : Indicator) (parameters : List (String × ParamVal))
    (customStyle : Option Style) (idSuffix : String) (now : ℚ)
    (store : List Store.IndicatorConfiguration) :
    Store.ActiveIndicator × List Store.IndicatorConfiguration :=
  let activeIndicator : Store.ActiveIndicator :=
    { id := "indicator_" ++ indicator.id ++ "_" ++ idSuffix
      baseId := indicator.id
      name := indicator.name
      pane := indicator.pane
      isActive := true
      values := parameters
      style := customStyle.getD indicator.style }
  (activeIndicator,
    IndicatorConfigRepository.saveIndicatorConfig "global" activeIndicator now store)

/-- Model of `removeIndicator(activeIndicator)` (lines 154-162): remove the
configuration persisted under the instance's unique id. -/
def removeIndicator (activeIndicator : Store.ActiveIndicator)
    (store : List Store.IndicatorConfiguration) : List Store.IndicatorConfiguration :=
  IndicatorConfigRepository.removeIndicatorConfig activeIndicator.id store

/-- Model of `updateIndicatorParameters(activeIndicator, newParameters)` (lines
167-187): throws when no current symbol is set; otherwise delegates to
the repository with the CURRENT SYMBOL id and the instance's `baseId` —
not with the unique instance id the configuration was saved under. -/
def updateIndicatorParameters (currentSymbolId : Option String)
    (activeIndicator : Store.ActiveIndicator)
    (newParameters : List (String × ParamVal)) (now : ℚ)
    (store : List Store.IndicatorConfiguration) :
    Except Unit (List Store.IndicatorConfiguration) :=
  match currentSymbolId with
  | none => .error ()
  | some symbolId =>
      .ok (IndicatorConfigRepository.updateIndicatorParameters symbolId
        activeIndicator.baseId newParameters now store)

end IndicatorManager

/-- C8. Adding an instance (persisted under a freshly generated globally
unique id) and then removing it by that id restores both the persisted
configuration store and the application's active-instance list (to which
`App` appends the new instance and from which removal filters it by id)
to their exact state before the add. -/
theorem add_then_remove_restores (indicator : IndicatorManager.Indicator)
    (parameters : List (String × ParamVal)) (customStyle : Option Style)
    (idSuffix : String) (now : ℚ) (store : List Store.IndicatorConfiguration)
    (activeList : List Store.ActiveIndicator)
    (hfresh : ("indicator_" ++ indicator.id ++ "_" ++ idSuffix) ∉
      store.map Store.IndicatorConfiguration.id)
    (hfresh2 : ("indicator_" ++ indicator.id ++ "_" ++ idSuffix) ∉
      activeList.map Store.ActiveIndicator.id) :
    IndicatorManager.removeIndicator
      (IndicatorManager.addIndicator indicator parameters customStyle idSuffix now store).1
      (IndicatorManager.addIndicator indicator parameters customStyle idSuffix now store).2
      = store ∧
    (activeList ++
        [(IndicatorManager.addIndicator indicator parameters customStyle idSuffix now store).1]).filter
      (fun ind => decide (ind.id ≠
        (IndicatorManager.addIndicator indicator parameters customStyle idSuffix now store).1.id))
      = activeList := by
  have hany : store.any (fun e =>
      decide (e.id = "indicator_" ++ indicator.id ++ "_" ++ idSuffix)) = false := by
    rw [List.any_eq_false]
    intro e he
    simp only [decide_eq_true_eq]
    intro heq
    exact hfresh (heq ▸ List.mem_map_of_mem Store.IndicatorConfiguration.id he)
  have hstore2 : (IndicatorManager.addIndicator indicator parameters customStyle
      idSuffix now store).2 = store ++
      [{ id := "indicator_" ++ indicator.id ++ "_" ++ idSuffix
         symbolId := "global"
         indicatorId := indicator.id
         indicatorName := indicator.name
         parameters := parameters
         style := customStyle.getD indicator.style
         pane := indicator.pane
         isEnabled := true
         createdAt := now
         updatedAt := now }] := by
    unfold IndicatorManager.addIndicator IndicatorConfigRepository.saveIndicatorConfig
      Store.dbPut
    dsimp only
    rw [if_neg (by simp [hany])]
  have hid : (IndicatorManager.addIndicator indicator parameters customStyle
      idSuffix now store).1.id = "indicator_" ++ indicator.id ++ "_" ++ idSuffix := rfl
  constructor
  · show Store.dbDelete _ _ = store
    rw [hstore2, hid]
    unfold Store.dbDelete
    rw [List.filter_append]
    have h1 : store.filter (fun e => decide (e.id ≠
        ("indicator_" ++ indicator.id ++ "_" ++ idSuffix))) = store := by
      apply List.filter_eq_self.mpr
      intro e he
      simp only [decide_eq_true_eq]
      intro heq
      exact hfresh (heq ▸ List.mem_map_of_mem Store.IndicatorConfiguration.id he)
    rw [h1]
    simp
  · rw [hid, List.filter_append]
    have h1 : activeList.filter (fun ind => decide (ind.id ≠
        ("indicator_" ++ indicator.id ++ "_" ++ idSuffix))) = activeList := by
      apply List.filter_eq_self.mpr
      intro e he
      simp only [decide_eq_true_eq]
      intro heq
      exact hfresh2 (heq ▸ List.mem_map_of_mem Store.ActiveIndicator.id he)
    rw [h1]
    simp [hid]

/-- A base SMA definition as selected from the registry. -/
def smaBase : IndicatorManager.Indicator := { id := "sma", name := "SMA" }

/-- C8 witness: the theorem applied to the empty store and empty active
list with a concrete generated suffix. -/
theorem add_then_remove_restores_witness :
    IndicatorManager.removeIndicator
      (IndicatorManager.addIndicator smaBase [("period", ParamVal.num 10)] none
        "123_abc" 0 []).1
      (IndicatorManager.addIndicator smaBase [("period", ParamVal.num 10)] none
        "123_abc" 0 []).2 = [] ∧
    ((([] : List Store.ActiveIndicator) ++
        [(IndicatorManager.addIndicator smaBase [("period", ParamVal.num 10)] none
        "123_abc" 0 []).1]).filter
      (fun ind => decide (ind.id ≠
        (IndicatorManager.addIndicator smaBase [("period", ParamVal.num 10)] none
          "123_abc" 0 []).1.id))) = [] :=
  add_then_remove_restores smaBase [("period", ParamVal.num 10)] none "123_abc" 0 []
    [] (by decide) (by decide)

/-- C7. Evaluation at the failing input: an instance added and persisted
by `addIndicator` is saved under the key `indicator_sma_123_abc` with
symbol scope `global`, but `updateIndicatorParameters` looks the
configuration up under `` `${currentSymbolId}_${baseId}` `` (here
`BTCUSDT_sma`, or `global_sma` even in the global scope), finds nothing,
and silently leaves the store unchanged: the persisted parameter map
still maps `period` to 10 after an update to 50 — the claimed
merge-and-persist does not happen for any instance the manager can
create. -/
theorem updateIndicatorParameters_misses_instance_configs :
    (IndicatorManager.updateIndicatorParameters (some "BTCUSDT")
      (IndicatorManager.addIndicator smaBase [("period", ParamVal.num 10)] none
        "123_abc" 0 []).1
      [("period", ParamVal.num 50)] 1
      (IndicatorManager.addIndicator smaBase [("period", ParamVal.num 10)] none
        "123_abc" 0 []).2 =
      .ok (IndicatorManager.addIndicator smaBase [("period", ParamVal.num 10)] none
        "123_abc" 0 []).2) ∧
    (IndicatorManager.updateIndicatorParameters (some "global")
      (IndicatorManager.addIndicator smaBase [("period", ParamVal.num 10)] none
        "123_abc" 0 []).1
      [("period", ParamVal.num 50)] 1
      (IndicatorManager.addIndicator smaBase [("period", ParamVal.num 10)] none
        "123_abc" 0 []).2 =
      .ok (IndicatorManager.addIndicator smaBase [("period", ParamVal.num 10)] none
        "123_abc" 0 []).2) ∧
    ((IndicatorManager.addIndicator smaBase [("period", ParamVal.num 10)] none
        "123_abc" 0 []).2.map (fun c => objGet c.parameters "period")) =
      [some (ParamVal.num 10)] := by
  refine ⟨rfl, rfl, by decide⟩

/-- A volume histogram point produced by the CSV parser. -/
structure VolumeData where
  time : ℚ
  value : ℚ
  color : String
  deriving Repr, DecidableEq, Inhabited

namespace SymbolDataRepository

/-- One parsed CSV row (`CSVRow`): every field is the result of
`cleanValue` (strip quotes, `parseFloat`), where `none` models NaN — a
non-numeric or missing cell. -/
structure CSVRow where
  timestamp : Option ℚ
  open_ : Option ℚ
  high : Option ℚ
  low : Option ℚ
  close : Option ℚ
  volume : Option ℚ
  close_time : Option ℚ
  quote_asset_volume : Option ℚ
  count : Option ℚ
  taker_buy_base_asset_volume : Option ℚ
  taker_buy_quote_asset_volume : Option ℚ
  ignoreField : Option ℚ
  deriving Repr, DecidableEq, Inhabited

/-- Build the `CSVRow` from the split columns (a cell is the parsed
numeric value of the raw text or `none` for NaN). -/
def rowOf (columns : List (Option ℚ)) : CSVRow :=
  { timestamp := columns.getD 0 none
    open_ := columns.getD 1 none
    high := columns.getD 2 none
    low := columns.getD 3 none
    close := columns.getD 4 none
    volume := columns.getD 5 none
    close_time := columns.getD 6 none
    quote_asset_volume := columns.getD 7 none
    count := columns.getD 8 none
    taker_buy_base_asset_volume := columns.getD 9 none
    taker_buy_quote_asset_volume := columns.getD 10 none
    ignoreField := columns.getD 11 none }

/-- Model of `isValidOHLCData` (lines 457-475): the six essential fields must be
numeric (not NaN), OHLC-consistent (`high ≥ max(open, close)`,
`low ≤ min(open, close)`) and non-negative. -/
def isValidOHLCData (row : CSVRow) : Bool :=
  match row.timestamp, row.open_, row.high, row.low, row.close, row.volume with
  | some _, some o, some h, some l, some c, some v =>
      if h < max o c ∨ l > min o c then false
      else if o < 0 ∨ h < 0 ∨ l < 0 ∨ c < 0 ∨ v < 0 then false
      else true
  | _, _, _, _, _, _ => false

/-- Model of `parseCSVLine` (lines 401-452): fewer than 12 columns is an invalid
row (`null`); otherwise validate; on success convert a
milliseconds timestamp (`> 10_000_000_000`) to floored seconds and emit
the OHLC bar and the colored volume point. -/
def parseCSVLine (columns : List (Option ℚ)) : Option (OHLC × VolumeData) :=
  if columns.length < 12 then none
  else
    let row := rowOf columns
    if isValidOHLCData row then
      match row.timestamp, row.open_, row.high, row.low, row.close, row.volume with
      | some ts, some o, some h, some l, some c, some v =>
          let time : ℚ := if ts > 10000000000 then ((⌊ts / 1000⌋ : ℤ) : ℚ) else ts
          some ({ time := time, open_ := o, high := h, low := l, close := c },
                { time := time, value := v,
                  color := if c ≥ o then "#26a69a" else "#ef5350" })
      | _, _, _, _, _, _ => none
    else none

/-- Model of `parseCSVData` (lines 362-396): parse each line, push the valid ones,
skip (and count) the invalid ones, never abort. -/
def parseCSVData (lines : List (List (Option ℚ))) : List OHLC × List VolumeData :=
  let parsed := lines.filterMap parseCSVLine
  (parsed.map Prod.fst, parsed.map Prod.snd)

end SymbolDataRepository

/-- C9. A malformed row — too few columns, a non-numeric essential field,
or OHLC-inconsistent values — is skipped individually: parsing a file
with the row removed gives the same result, so parsing continues with
subsequent rows; a file in which every row is invalid yields the
empty-but-valid result `([], [])` rather than an exception. -/
theorem parseCSVData_skips_invalid_rows :
    (∀ pre post bad, SymbolDataRepository.parseCSVLine bad = none →
      SymbolDataRepository.parseCSVData (pre ++ bad :: post) =
        SymbolDataRepository.parseCSVData (pre ++ post)) ∧
    (∀ lines, (∀ l ∈ lines, SymbolDataRepository.parseCSVLine l = none) →
      SymbolDataRepository.parseCSVData lines = ([], [])) ∧
    (∀ columns, columns.length < 12 →
      SymbolDataRepository.parseCSVLine columns = none) ∧
    (∀ columns, columns.getD 1 none = none →
      SymbolDataRepository.parseCSVLine columns = none) ∧
    (∀ columns row, row = SymbolDataRepository.rowOf columns →
      SymbolDataRepository.isValidOHLCData row = false →
      SymbolDataRepository.parseCSVLine columns = none) := by
  refine ⟨?_, ?_, ?_, ?_, ?_⟩
  · intro pre post bad hbad
    unfold SymbolDataRepository.parseCSVData
    rw [List.filterMap_append, List.filterMap_append, List.filterMap_cons, hbad]
  · intro lines hall
    unfold SymbolDataRepository.parseCSVData
    rw [List.filterMap_eq_nil.mpr hall]
    rfl
  · intro columns hlen
    unfold SymbolDataRepository.parseCSVLine
    rw [if_pos hlen]
  · intro columns hopen
    unfold SymbolDataRepository.parseCSVLine
    by_cases hlen : columns.length < 12
    · rw [if_pos hlen]
    · rw [if_neg hlen]
      have hval : SymbolDataRepository.isValidOHLCData
          (SymbolDataRepository.rowOf columns) = false := by
        unfold SymbolDataRepository.isValidOHLCData
        have hr : (SymbolDataRepository.rowOf columns).open_ = none := hopen
        rw [hr]
        rcases (SymbolDataRepository.rowOf columns).timestamp <;> rfl
      simp [hval]
  · intro columns row hrow hval
    unfold SymbolDataRepository.parseCSVLine
    by_cases hlen : columns.length < 12
    · rw [if_pos hlen]
    · rw [if_neg hlen, ← hrow]
      simp [hval]

/-- A well-formed 12-column row: time 100, open 1, high 2, low 1,
close 2, volume 3. -/
def goodLine : List (Option ℚ) :=
  [some 100, some 1, some 2, some 1, some 2, some 3, some 0, some 0, some 0,
    some 0, some 0, some 0]

/-- A malformed row with only 5 comma-separated fields. -/
def badLine : List (Option ℚ) := [some 1, some 2, some 3, some 4, some 5]

/-- C9 witness: the theorem applied to a file containing a good row, the
5-field malformed row, and another good row — the malformed row is
skipped, both good rows survive, and the all-invalid file parses to the
empty result. -/
theorem parseCSVData_skips_invalid_rows_witness :
    (SymbolDataRepository.parseCSVLine badLine = none ∧
      SymbolDataRepository.parseCSVData [goodLine, badLine, goodLine] =
        SymbolDataRepository.parseCSVData [goodLine, goodLine]) ∧
    SymbolDataRepository.parseCSVData [badLine] = ([], []) ∧
    ((SymbolDataRepository.parseCSVData [goodLine, badLine, goodLine]).1.length = 2) := by
  have hbad : SymbolDataRepository.parseCSVLine badLine = none :=
    parseCSVData_skips_invalid_rows.2.2.1 badLine (by decide)
  refine ⟨⟨hbad, ?_⟩, ?_, by decide⟩
  · exact parseCSVData_skips_invalid_rows.1 [goodLine] [goodLine] badLine hbad
  · exact parseCSVData_skips_invalid_rows.2.1 [badLine]
      (by intro l hl; rw [List.mem_singleton.mp hl]; exact hbad)
